import Mathlib

/-!
# knative-extensions/sample-source: adapter environment configuration

A shallow embedding of `vendor/knative.dev/eventing/pkg/adapter/v2/config.go`
(the `EnvConfig` record and its accessors) and of
`pkg/apis/samples/v1alpha1` (the `SampleSource` record and its defaulting
rule), together with the parts of Go's `strconv` and `encoding/json`
packages that the accessors call.

Conventions.
* Go strings are modelled by Lean strings, i.e. sequences of Unicode code
  points (Go strings holding valid UTF-8).
* Go's `int` is the 64-bit signed integer; it is modelled by `Int` together
  with the explicit range check that `strconv` performs.
* A Go method with a pointer receiver is modelled by a function returning
  its results together with the receiver record after the call.
* A nil-able pointer is an `Option`; an `error` result is an `Option` of an
  error value (`none` is the nil error).
-/

deriving instance DecidableEq for Except

namespace Go

/-! ## strconv -/

namespace strconv

/-- The two failure kinds of `strconv.NumError`. -/
inductive NumError where
  | ErrSyntax : NumError
  | ErrRange : NumError
  deriving DecidableEq, Repr

/-- The width of Go's `int` on the platforms the adapter runs on. -/
def intSize : Nat := 64

/-- An ASCII decimal digit. -/
def isDigit (c : Char) : Bool :=
  decide ('0'.toNat ≤ c.toNat) && decide (c.toNat ≤ '9'.toNat)

/-- The digit loop of `strconv.ParseUint` in base 10: `n = n*10 + d` for each
digit, a range error as soon as the value exceeds `maxVal`, a syntax error at
the first character that is not a digit. -/
def parseUintLoop (maxVal : Nat) : List Char → Nat → Except NumError Nat
  | [], n => Except.ok n
  | c :: cs, n =>
    if isDigit c then
      if maxVal < n * 10 + (c.toNat - '0'.toNat) then Except.error NumError.ErrRange
      else parseUintLoop maxVal cs (n * 10 + (c.toNat - '0'.toNat))
    else Except.error NumError.ErrSyntax

/-- `strconv.ParseUint(s, 10, bitSize)`: a non-empty sequence of decimal
digits whose value fits `bitSize` bits. No sign and no underscore is
accepted in base 10. Only the error is modelled on failure (no caller here
reads the value returned next to a non-nil error). -/
def ParseUint (s : List Char) (bitSize : Nat) : Except NumError Nat :=
  if s = [] then Except.error NumError.ErrSyntax
  else parseUintLoop (2 ^ bitSize - 1) s 0

/-- `strconv.ParseInt(s, 10, bitSize)`: an optional sign, then
`ParseUint(s, 10, 64)`; the magnitude is checked against the signed range
(`cutoff = 1 << (bitSize-1)`). -/
def ParseInt (s : List Char) (bitSize : Nat) : Except NumError Int :=
  match s with
  | [] => Except.error NumError.ErrSyntax
  | c :: rest =>
    let neg : Bool := c = '-'
    let digits := if c = '+' ∨ c = '-' then rest else c :: rest
    match ParseUint digits 64 with
    | Except.error e => Except.error e
    | Except.ok un =>
      if neg = false ∧ 2 ^ (bitSize - 1) ≤ un then Except.error NumError.ErrRange
      else if neg = true ∧ 2 ^ (bitSize - 1) < un then Except.error NumError.ErrRange
      else Except.ok (if neg then - (un : Int) else (un : Int))

/-- `strconv.Atoi(s)`: `ParseInt(s, 10, 0)`, where bit size 0 stands for the
width of `int` (the fast path for short inputs computes the same result). -/
def Atoi (s : String) : Except NumError Int :=
  ParseInt s.toList intSize

/-- The digit character of `d < 10`. -/
def digitChar (d : Nat) : Char := Char.ofNat ('0'.toNat + d)

/-- The loop of `strconv.formatBits` in base 10: digits are produced from
the least significant end and prepended to `acc`. -/
def formatDigits : Nat → Nat → List Char → List Char
  | 0, _, acc => acc
  | fuel + 1, u, acc =>
    if u < 10 then digitChar u :: acc
    else formatDigits fuel (u / 10) (digitChar (u % 10) :: acc)

/-- `strconv.FormatUint(u, 10)`. The loop runs once per decimal digit, so
`u + 1` rounds always suffice. -/
def FormatUint (u : Nat) : List Char := formatDigits (u + 1) u []

/-- `strconv.FormatInt(i, 10)`. -/
def FormatInt (i : Int) : List Char :=
  if i < 0 then '-' :: FormatUint i.natAbs else FormatUint i.natAbs

end strconv

/-! ## encoding/json: reading a document -/

namespace json

/-- A JSON document as the decoder sees it. A number keeps its literal text,
a string and an object key are already unquoted. -/
inductive Value where
  | null : Value
  | bool : Bool → Value
  | number : List Char → Value
  | string : List Char → Value
  | array : List Value → Value
  | object : List (List Char × Value) → Value

/-- The errors `json.Unmarshal` returns. -/
inductive Error where
  | SyntaxError : Error
  | UnmarshalTypeError : String → Error
  deriving DecidableEq, Repr

/-- The scanner's `isSpace`. -/
def isSpace (c : Char) : Bool := c = ' ' || c = '\t' || c = '\r' || c = '\n'

/-- Drop leading white space. -/
def skipSpace : List Char → List Char
  | [] => []
  | c :: cs => if isSpace c then skipSpace cs else c :: cs

/-- One unit of a quoted string: a character (written as itself or with a
two-character escape) or the 16-bit value of a `\uXXXX` escape. -/
inductive StrItem where
  | lit : Char → StrItem
  | esc : Nat → StrItem
  deriving DecidableEq, Repr

/-- Value of a hexadecimal digit, either case. -/
def hexVal (c : Char) : Option Nat :=
  if '0'.toNat ≤ c.toNat ∧ c.toNat ≤ '9'.toNat then some (c.toNat - '0'.toNat)
  else if 'a'.toNat ≤ c.toNat ∧ c.toNat ≤ 'f'.toNat then some (c.toNat - 'a'.toNat + 10)
  else if 'A'.toNat ≤ c.toNat ∧ c.toNat ≤ 'F'.toNat then some (c.toNat - 'A'.toNat + 10)
  else none

/-- The decoder's `getu4`: the value of four hexadecimal digits. -/
def getu4 (a b c d : Char) : Option Nat :=
  match hexVal a, hexVal b, hexVal c, hexVal d with
  | some x, some y, some z, some w => some (((x * 16 + y) * 16 + z) * 16 + w)
  | _, _, _, _ => none

/-- The character a two-character escape stands for. -/
def simpleEscape (c : Char) : Option Char :=
  if c = '"' then some '"'
  else if c = '\\' then some '\\'
  else if c = '/' then some '/'
  else if c = 'b' then some '\x08'
  else if c = 'f' then some '\x0c'
  else if c = 'n' then some '\n'
  else if c = 'r' then some '\r'
  else if c = 't' then some '\t'
  else none

/-- Scan a string literal from just after its opening quote up to and
including its closing quote (scanner states `stateInString`,
`stateInStringEsc`, `stateInStringEscU...`): a control character, an unknown
escape or a missing closing quote is a syntax error. -/
def scanString : List Char → Option (List StrItem × List Char)
  | [] => none
  | c :: cs =>
    if c = '"' then some ([], cs)
    else if c = '\\' then
      match cs with
      | [] => none
      | e :: cs1 =>
        if e = 'u' then
          match cs1 with
          | a :: b :: c2 :: d :: cs2 =>
            match getu4 a b c2 d with
            | none => none
            | some u => (scanString cs2).map fun p => (StrItem.esc u :: p.1, p.2)
          | _ => none
        else
          match simpleEscape e with
          | none => none
          | some x => (scanString cs1).map fun p => (StrItem.lit x :: p.1, p.2)
    else if c.toNat < 0x20 then none
    else (scanString cs).map fun p => (StrItem.lit c :: p.1, p.2)

/-- The Unicode replacement character U+FFFD. -/
def replacementChar : Char := Char.ofNat 0xFFFD

/-- The loop of the decoder's `unquote`. A `\uXXXX` escape is a UTF-16 code
unit: a high surrogate directly followed by an escaped low surrogate is one
code point, any other surrogate becomes U+FFFD. The first argument is the
high surrogate read just before, if any (the decoder looks one escape ahead
instead). -/
def unquoteLoop : Option Nat → List StrItem → List Char
  | none, [] => []
  | some _, [] => [replacementChar]
  | none, StrItem.lit c :: r => c :: unquoteLoop none r
  | some _, StrItem.lit c :: r => replacementChar :: c :: unquoteLoop none r
  | none, StrItem.esc u :: r =>
    if 0xD800 ≤ u ∧ u < 0xDC00 then unquoteLoop (some u) r
    else if 0xDC00 ≤ u ∧ u < 0xE000 then replacementChar :: unquoteLoop none r
    else Char.ofNat u :: unquoteLoop none r
  | some h, StrItem.esc v :: r =>
    if 0xDC00 ≤ v ∧ v < 0xE000 then
      Char.ofNat (0x10000 + (h - 0xD800) * 0x400 + (v - 0xDC00)) :: unquoteLoop none r
    else if 0xD800 ≤ v ∧ v < 0xDC00 then replacementChar :: unquoteLoop (some v) r
    else replacementChar :: Char.ofNat v :: unquoteLoop none r

/-- The decoder's `unquote`. -/
def unquote (items : List StrItem) : List Char := unquoteLoop none items

/-- Exponent part of a number (scanner states `stateE`, `stateESign`,
`stateE0`). -/
def scanExp (acc cs : List Char) : Option (List Char × List Char) :=
  match cs with
  | [] => some (acc, [])
  | e :: r =>
    if e = 'e' ∨ e = 'E' then
      let sg : List Char × List Char :=
        match r with
        | [] => ([], r)
        | s :: r1 => if s = '+' ∨ s = '-' then ([s], r1) else ([], r)
      let ds := sg.2.span strconv.isDigit
      if ds.1 = [] then none else some (acc ++ e :: sg.1 ++ ds.1, ds.2)
    else some (acc, cs)

/-- Fraction part of a number (scanner states `stateDot`, `stateDot0`). -/
def scanFrac (acc cs : List Char) : Option (List Char × List Char) :=
  match cs with
  | [] => some (acc, [])
  | p :: r =>
    if p = '.' then
      let ds := r.span strconv.isDigit
      if ds.1 = [] then none else scanExp (acc ++ '.' :: ds.1) ds.2
    else scanExp acc cs

/-- Integer part of a number (scanner states `state0`, `state1`): a single
`0`, or a non-zero digit followed by digits. -/
def scanInt (cs : List Char) : Option (List Char × List Char) :=
  match cs with
  | [] => none
  | c :: r =>
    if c = '0' then scanFrac ['0'] r
    else if strconv.isDigit c then
      let ds := r.span strconv.isDigit
      scanFrac (c :: ds.1) ds.2
    else none

/-- Scan a number literal; the result is its text and the input after it. -/
def scanNumber (cs : List Char) : Option (List Char × List Char) :=
  match cs with
  | [] => none
  | c :: r =>
    if c = '-' then (scanInt r).map fun p => ('-' :: p.1, p.2)
    else scanInt cs

/-- The elements of an array after the first value has been announced:
values separated by commas up to the closing bracket. -/
def elemsLoop (pv : List Char → Option (Value × List Char)) :
    Nat → List Char → Option (List Value × List Char)
  | 0, _ => none
  | n + 1, cs =>
    match pv cs with
    | none => none
    | some (v, rest) =>
      match skipSpace rest with
      | [] => none
      | c :: rest2 =>
        if c = ',' then (elemsLoop pv n rest2).map fun p => (v :: p.1, p.2)
        else if c = ']' then some ([v], rest2)
        else none

/-- The members of an object: `"key" : value` pairs separated by commas up
to the closing brace. -/
def membersLoop (pv : List Char → Option (Value × List Char)) :
    Nat → List Char → Option (List (List Char × Value) × List Char)
  | 0, _ => none
  | n + 1, cs =>
    match skipSpace cs with
    | [] => none
    | q :: r1 =>
      if q = '"' then
        match scanString r1 with
        | none => none
        | some (k, r2) =>
          match skipSpace r2 with
          | [] => none
          | c :: r3 =>
            if c = ':' then
              match pv r3 with
              | none => none
              | some (v, r4) =>
                match skipSpace r4 with
                | [] => none
                | c2 :: r5 =>
                  if c2 = ',' then
                    (membersLoop pv n r5).map fun p => ((unquote k, v) :: p.1, p.2)
                  else if c2 = '}' then some ([(unquote k, v)], r5)
                  else none
            else none
      else none

/-- Read one JSON value, skipping white space before it. The first argument
is the number of nested arrays and objects still allowed: opening one more
than that is the scanner's "exceeded max depth" error. -/
def parseValue : Nat → List Char → Option (Value × List Char)
  | d, cs =>
    match skipSpace cs with
    | [] => none
    | c :: r =>
      if c = '{' then
        match d with
        | 0 => none
        | d + 1 =>
          match skipSpace r with
          | [] => none
          | c1 :: r1 =>
            if c1 = '}' then some (Value.object [], r1)
            else (membersLoop (parseValue d) r.length r).map fun p => (Value.object p.1, p.2)
      else if c = '[' then
        match d with
        | 0 => none
        | d + 1 =>
          match skipSpace r with
          | [] => none
          | c1 :: r1 =>
            if c1 = ']' then some (Value.array [], r1)
            else (elemsLoop (parseValue d) r.length r).map fun p => (Value.array p.1, p.2)
      else if c = '"' then
        (scanString r).map fun p => (Value.string (unquote p.1), p.2)
      else if c = 't' then
        match r with
        | 'r' :: 'u' :: 'e' :: r1 => some (Value.bool true, r1)
        | _ => none
      else if c = 'f' then
        match r with
        | 'a' :: 'l' :: 's' :: 'e' :: r1 => some (Value.bool false, r1)
        | _ => none
      else if c = 'n' then
        match r with
        | 'u' :: 'l' :: 'l' :: r1 => some (Value.null, r1)
        | _ => none
      else (scanNumber (c :: r)).map fun p => (Value.number p.1, p.2)

/-- The scanner's `maxNestingDepth`. -/
def maxNestingDepth : Nat := 10000

/-- The decoder's `checkValid` and scan in one pass: exactly one value, with
white space allowed around it. `none` is a `SyntaxError`. -/
def parse (data : List Char) : Option Value :=
  match parseValue maxNestingDepth data with
  | none => none
  | some (v, rest) => if skipSpace rest = [] then some v else none

/-! ## encoding/json: storing into a Go value -/

/-- What the decoder needs to know of a struct type without custom
unmarshalling: its zero value and how one object member `key: value` is
stored into it (the body of the member loop of the decoder's `object`),
giving the updated struct and the error saved for that member, if any. -/
structure StructType (T : Type) where
  zero : T
  store : List Char → Value → T → T × Option Error

/-- The member loop of the decoder's `object` for a struct: members are
stored in document order, decoding goes on after a type error and the first
error saved is the one reported (`saveError`). -/
def decodeObject {T : Type} (ty : StructType T) : List (List Char × Value) → T → T × Option Error
  | [], v => (v, none)
  | (k, x) :: ms, v =>
    let r1 := ty.store k x v
    let r2 := decodeObject ty ms r1.1
    (r2.1, if r1.2.isSome then r1.2 else r2.2)

/-- `json.Unmarshal(data, &v)` for a struct `v`: a syntax error leaves `v`
untouched; `null` is a no-op; an object is stored member by member; any
other document is a type error. The result is `v` after the call and the
error returned. -/
def Unmarshal {T : Type} (ty : StructType T) (data : String) (v : T) : T × Option Error :=
  match parse data.toList with
  | none => (v, some Error.SyntaxError)
  | some Value.null => (v, none)
  | some (Value.object ms) => decodeObject ty ms v
  | some (Value.array _) => (v, some (Error.UnmarshalTypeError "array"))
  | some (Value.string _) => (v, some (Error.UnmarshalTypeError "string"))
  | some (Value.number _) => (v, some (Error.UnmarshalTypeError "number"))
  | some (Value.bool _) => (v, some (Error.UnmarshalTypeError "bool"))

/-- Case folding of a rune for field-name matching (`foldRune`): the
smallest rune of its simple-folding orbit. Restricted to what can meet an
ASCII field name: the ASCII letters, U+017F (long s) and U+212A (Kelvin). -/
def foldRune (c : Char) : Char :=
  if 'a'.toNat ≤ c.toNat ∧ c.toNat ≤ 'z'.toNat then Char.ofNat (c.toNat - 32)
  else if c.toNat = 0x17F then 'S'
  else if c.toNat = 0x212A then 'K'
  else c

/-- The decoder's `foldName`. -/
def foldName (s : List Char) : List Char := s.map foldRune

/-- Field lookup for an object key: an exact name match, else the first
field whose folded name equals the folded key. -/
def findField {F : Type} (fields : List F) (name : F → List Char) (key : List Char) : Option F :=
  match fields.find? (fun f => decide (name f = key)) with
  | some f => some f
  | none => fields.find? (fun f => decide (foldName (name f) = foldName key))

/-- `literalStore`/`array`/`object` into a field of kind string. -/
def storeString (x : Value) (old : String) : String × Option Error :=
  match x with
  | Value.null => (old, none)
  | Value.string s => (String.mk s, none)
  | Value.bool _ => (old, some (Error.UnmarshalTypeError "bool"))
  | Value.number _ => (old, some (Error.UnmarshalTypeError "number"))
  | Value.array _ => (old, some (Error.UnmarshalTypeError "array"))
  | Value.object _ => (old, some (Error.UnmarshalTypeError "object"))

/-- `literalStore`/`array`/`object` into a field of an unsigned integer kind
of `bits` bits: the literal goes through `strconv.ParseUint(_, 10, 64)` and
`OverflowUint`. -/
def storeUint (bits : Nat) (x : Value) (old : Nat) : Nat × Option Error :=
  match x with
  | Value.null => (old, none)
  | Value.number lit =>
    match strconv.ParseUint lit 64 with
    | Except.ok n =>
      if n < 2 ^ bits then (n, none)
      else (old, some (Error.UnmarshalTypeError ("number " ++ String.mk lit)))
    | Except.error _ => (old, some (Error.UnmarshalTypeError ("number " ++ String.mk lit)))
  | Value.string _ => (old, some (Error.UnmarshalTypeError "string"))
  | Value.bool _ => (old, some (Error.UnmarshalTypeError "bool"))
  | Value.array _ => (old, some (Error.UnmarshalTypeError "array"))
  | Value.object _ => (old, some (Error.UnmarshalTypeError "object"))

/-- `literalStore`/`array`/`object` into a field of a signed integer kind of
`bits` bits: the literal goes through `strconv.ParseInt(_, 10, 64)` and
`OverflowInt`. -/
def storeInt (bits : Nat) (x : Value) (old : Int) : Int × Option Error :=
  match x with
  | Value.null => (old, none)
  | Value.number lit =>
    match strconv.ParseInt lit 64 with
    | Except.ok n =>
      if - (2 ^ (bits - 1) : Int) ≤ n ∧ n < 2 ^ (bits - 1) then (n, none)
      else (old, some (Error.UnmarshalTypeError ("number " ++ String.mk lit)))
    | Except.error _ => (old, some (Error.UnmarshalTypeError ("number " ++ String.mk lit)))
  | Value.string _ => (old, some (Error.UnmarshalTypeError "string"))
  | Value.bool _ => (old, some (Error.UnmarshalTypeError "bool"))
  | Value.array _ => (old, some (Error.UnmarshalTypeError "array"))
  | Value.object _ => (old, some (Error.UnmarshalTypeError "object"))

/-! ## encoding/json: writing -/

/-- The lower-case hexadecimal digit of `n < 16`. -/
def hexDigit (n : Nat) : Char :=
  if n < 10 then Char.ofNat ('0'.toNat + n) else Char.ofNat ('a'.toNat + (n - 10))

/-- The encoder's `htmlSafeSet`: the ASCII characters written as they are. -/
def htmlSafe (c : Char) : Bool :=
  decide (0x20 ≤ c.toNat) && decide (c.toNat < 0x80) &&
    !(c = '"' || c = '&' || c = '<' || c = '>' || c = '\\')

/-- How the encoder's `appendString` writes one rune, HTML escaping on. -/
def escapeRune (c : Char) : List Char :=
  if c.toNat < 0x80 then
    if htmlSafe c then [c]
    else if c = '\\' ∨ c = '"' then ['\\', c]
    else if c = '\x08' then ['\\', 'b']
    else if c = '\x0c' then ['\\', 'f']
    else if c = '\n' then ['\\', 'n']
    else if c = '\r' then ['\\', 'r']
    else if c = '\t' then ['\\', 't']
    else ['\\', 'u', '0', '0', hexDigit (c.toNat / 16), hexDigit (c.toNat % 16)]
  else if c.toNat = 0x2028 ∨ c.toNat = 0x2029 then
    ['\\', 'u', '2', '0', '2', hexDigit (c.toNat % 16)]
  else [c]

/-- The encoder's `appendString`: a quoted, escaped string. -/
def appendString (s : List Char) : List Char :=
  '"' :: (s.flatMap escapeRune ++ ['"'])

end json

end Go

/-! ## knative.dev/pkg/leaderelection -/

namespace kle

open Go

/-- Modelled from the spec: the declaration of `kle.ComponentConfig` is not
part of the sources at hand. The spec lists its content as component name,
bucket count, lease duration, renew deadline and retry period; the field
names are those `defaultLeaderElectionConfig` assigns. `Buckets` is a
`uint32`, the three durations are `time.Duration` values (`int64`
nanoseconds); the fields carry no JSON tags. -/
structure ComponentConfig where
  Component : String
  Buckets : Nat
  LeaseDuration : Int
  RenewDeadline : Int
  RetryPeriod : Int
  deriving DecidableEq, Repr

/-- The fields of `ComponentConfig` in declaration order. -/
inductive Field where
  | Component : Field
  | Buckets : Field
  | LeaseDuration : Field
  | RenewDeadline : Field
  | RetryPeriod : Field
  deriving DecidableEq, Repr

/-- The JSON name of a field: the Go field name, there being no tag. -/
def Field.name : Field → List Char
  | Field.Component => "Component".toList
  | Field.Buckets => "Buckets".toList
  | Field.LeaseDuration => "LeaseDuration".toList
  | Field.RenewDeadline => "RenewDeadline".toList
  | Field.RetryPeriod => "RetryPeriod".toList

/-- All fields, in declaration order. -/
def Field.all : List Field :=
  [Field.Component, Field.Buckets, Field.LeaseDuration, Field.RenewDeadline, Field.RetryPeriod]

/-- The values a `ComponentConfig` can hold in memory: the machine ranges of
its integer fields. -/
def ComponentConfig.InRange (c : ComponentConfig) : Prop :=
  c.Buckets < 2 ^ 32 ∧
  (- (2 ^ 63 : Int) ≤ c.LeaseDuration ∧ c.LeaseDuration < 2 ^ 63) ∧
  (- (2 ^ 63 : Int) ≤ c.RenewDeadline ∧ c.RenewDeadline < 2 ^ 63) ∧
  (- (2 ^ 63 : Int) ≤ c.RetryPeriod ∧ c.RetryPeriod < 2 ^ 63)

instance (c : ComponentConfig) : Decidable c.InRange := by
  unfold ComponentConfig.InRange; infer_instance

/-- Store one object member into a `ComponentConfig`; a key that names no
field is skipped. -/
def ComponentConfig.store (key : List Char) (x : json.Value) (c : ComponentConfig) :
    ComponentConfig × Option json.Error :=
  match json.findField Field.all Field.name key with
  | none => (c, none)
  | some Field.Component =>
    let r := json.storeString x c.Component
    ({ c with Component := r.1 }, r.2)
  | some Field.Buckets =>
    let r := json.storeUint 32 x c.Buckets
    ({ c with Buckets := r.1 }, r.2)
  | some Field.LeaseDuration =>
    let r := json.storeInt 64 x c.LeaseDuration
    ({ c with LeaseDuration := r.1 }, r.2)
  | some Field.RenewDeadline =>
    let r := json.storeInt 64 x c.RenewDeadline
    ({ c with RenewDeadline := r.1 }, r.2)
  | some Field.RetryPeriod =>
    let r := json.storeInt 64 x c.RetryPeriod
    ({ c with RetryPeriod := r.1 }, r.2)

/-- `ComponentConfig` as a decoding target. -/
def ComponentConfig.structType : json.StructType ComponentConfig where
  zero := { Component := "", Buckets := 0, LeaseDuration := 0, RenewDeadline := 0, RetryPeriod := 0 }
  store := ComponentConfig.store

/-- `json.Marshal(cfg)` for a `*ComponentConfig`: the fields in declaration
order. No field of the struct can make the encoder fail, so the error is
always nil. -/
def ComponentConfig.Marshal (c : ComponentConfig) : String × Option json.Error :=
  (String.mk
    ("\x7b\"Component\":".toList ++ json.appendString c.Component.toList ++
     ",\"Buckets\":".toList ++ strconv.FormatUint c.Buckets ++
     ",\"LeaseDuration\":".toList ++ strconv.FormatInt c.LeaseDuration ++
     ",\"RenewDeadline\":".toList ++ strconv.FormatInt c.RenewDeadline ++
     ",\"RetryPeriod\":".toList ++ strconv.FormatInt c.RetryPeriod ++ "\x7d".toList),
   none)

end kle

/-! ## The libraries the accessors call into -/

namespace logging

/-- The part of `knative.dev/pkg/logging` that `GetLogger` calls, taken as a
parameter: `Cfg` is `*logging.Config`, `L` a (non-nil) `*zap.SugaredLogger`.
`NewLoggerFromConfig` also returns an atomic level, which the caller drops. -/
structure Lib (Cfg L : Type) where
  JSONToConfig : String → Except String Cfg
  NewConfigFromMap : List (String × String) → Except String Cfg
  NewLoggerFromConfig : Cfg → String → L

/-- Severity of a logged message. -/
inductive Level where
  | Warn : Level
  | Error : Level
  deriving DecidableEq, Repr

/-- One message handed to a logger. -/
structure Entry (L : Type) where
  logger : L
  level : Level
  message : String
  deriving DecidableEq, Repr

end logging

namespace os

/-- The process environment: the value of each variable that is set. -/
abbrev Environ : Type := String → Option String

/-- `os.Getenv(key)`: the value of the variable, empty when it is not set. -/
def Getenv (env : Environ) (key : String) : String :=
  match env key with
  | some v => v
  | none => ""

end os

namespace types

/-- `k8s.io/apimachinery/pkg/types.NamespacedName`. -/
structure NamespacedName where
  Namespace : String
  Name : String
  deriving DecidableEq, Repr

end types

/-! ## adapter/v2/config.go -/

namespace adapter

open Go

/-- Name of the sink-timeout environment variable. -/
def EnvSinkTimeout : String := "K_SINK_TIMEOUT"

/-- `time.Second` in nanoseconds. -/
def Second : Int := 1000000000

/-- The record `EnvConfig`; `L` is the type of logger handles, the cached
logger being nil until `GetLogger` has built it. -/
structure EnvConfig (L : Type) where
  Component : String
  Namespace : String
  Name : String
  ResourceGroup : String
  Sink : String
  Audience : Option String
  OIDCServiceAccountName : Option String
  CACerts : Option String
  CEOverrides : String
  LoggingConfigJson : String
  ObservabilityConfigJson : String
  LeaderElectionConfigJson : String
  EnvSinkTimeout : String
  logger : Option L
  deriving DecidableEq, Repr

variable {Cfg L O C : Type}

/-- `func (e *EnvConfig) SetComponent(component string)`. -/
def EnvConfig.SetComponent (e : EnvConfig L) (component : String) : EnvConfig L :=
  { e with Component := component }

/-- `func (e *EnvConfig) GetLogger() *zap.SugaredLogger`. The result is the
logger and the record after the call; `Except.error` is the panic raised
when even the default logging configuration cannot be built. -/
def EnvConfig.GetLogger (lib : logging.Lib Cfg L) (e : EnvConfig L) : Except String (L × EnvConfig L) :=
  match e.logger with
  | some l => Except.ok (l, e)
  | none =>
    let built : Except String Cfg :=
      match lib.JSONToConfig e.LoggingConfigJson with
      | Except.ok loggingConfig => Except.ok loggingConfig
      | Except.error _ =>
        match lib.NewConfigFromMap [] with
        | Except.ok loggingConfig => Except.ok loggingConfig
        | Except.error err => Except.error err
    match built with
    | Except.error err => Except.error err
    | Except.ok loggingConfig =>
      let logger := lib.NewLoggerFromConfig loggingConfig e.Component
      Except.ok (logger, { e with logger := some logger })

/-- `func (e *EnvConfig) GetSink() string`. -/
def EnvConfig.GetSink (e : EnvConfig L) : String × EnvConfig L := (e.Sink, e)

/-- `func (e *EnvConfig) GetOIDCServiceAccountName() *types.NamespacedName`. -/
def EnvConfig.GetOIDCServiceAccountName (e : EnvConfig L) :
    Option types.NamespacedName × EnvConfig L :=
  match e.OIDCServiceAccountName with
  | some name => (some { Namespace := e.Namespace, Name := name }, e)
  | none => (none, e)

/-- `func (e *EnvConfig) GetCACerts() *string`. -/
def EnvConfig.GetCACerts (e : EnvConfig L) : Option String × EnvConfig L := (e.CACerts, e)

/-- `func (e *EnvConfig) GetAudience() *string`. -/
def EnvConfig.GetAudience (e : EnvConfig L) : Option String × EnvConfig L := (e.Audience, e)

/-- `func (e *EnvConfig) GetNamespace() string`. -/
def EnvConfig.GetNamespace (e : EnvConfig L) : String × EnvConfig L := (e.Namespace, e)

/-- `func (e *EnvConfig) GetName() string`. -/
def EnvConfig.GetName (e : EnvConfig L) : String × EnvConfig L := (e.Name, e)

/-- What a call of `GetSinktimeout` produces: the integer returned, the
messages logged and the record after the call. -/
structure SinktimeoutResult (L : Type) where
  value : Int
  logged : List (logging.Entry L)
  after : EnvConfig L
  deriving DecidableEq, Repr

/-- `func (e *EnvConfig) GetSinktimeout() int`. `Except.error` is a panic
coming out of `GetLogger`. -/
def EnvConfig.GetSinktimeout (lib : logging.Lib Cfg L) (e : EnvConfig L) :
    Except String (SinktimeoutResult L) :=
  match strconv.Atoi e.EnvSinkTimeout with
  | Except.ok duration => Except.ok { value := duration, logged := [], after := e }
  | Except.error _ =>
    match e.GetLogger lib with
    | Except.error p => Except.error p
    | Except.ok (logger, e1) =>
      Except.ok
        { value := -1
          logged := [{ logger := logger, level := logging.Level.Warn,
                       message := "Sink timeout configuration is invalid, default to -1 (no timeout)" }]
          after := e1 }

/-- `func (e *EnvConfig) GetObservabilityConfig() (*observability.Config, error)`.
The struct `observability.Config` is a parameter (`ty`); the pointer
returned is never nil. -/
def EnvConfig.GetObservabilityConfig (ty : json.StructType O) (e : EnvConfig L) :
    (Option O × Option json.Error) × EnvConfig L :=
  let r := json.Unmarshal ty e.ObservabilityConfigJson ty.zero
  ((some r.1, r.2), e)

/-- `func (e *EnvConfig) GetCloudEventOverrides() (*duckv1.CloudEventOverrides, error)`.
The struct `duckv1.CloudEventOverrides` is a parameter (`ty`). -/
def EnvConfig.GetCloudEventOverrides (ty : json.StructType C) (e : EnvConfig L) :
    (Option C × Option json.Error) × EnvConfig L :=
  if 0 < e.CEOverrides.length then
    let r := json.Unmarshal ty e.CEOverrides ty.zero
    match r.2 with
    | some err => ((none, some err), e)
    | none => ((some r.1, none), e)
  else ((some ty.zero, none), e)

/-- `func (e *EnvConfig) defaultLeaderElectionConfig() *kle.ComponentConfig`
(it only reads the receiver). -/
def EnvConfig.defaultLeaderElectionConfig (e : EnvConfig L) : kle.ComponentConfig :=
  { Component := e.Component
    Buckets := 1
    LeaseDuration := 15 * Second
    RenewDeadline := 10 * Second
    RetryPeriod := 2 * Second }

/-- `func (e *EnvConfig) GetLeaderElectionConfig() (*kle.ComponentConfig, error)`. -/
def EnvConfig.GetLeaderElectionConfig (e : EnvConfig L) :
    (Option kle.ComponentConfig × Option json.Error) × EnvConfig L :=
  if e.LeaderElectionConfigJson = "" then
    ((some e.defaultLeaderElectionConfig, none), e)
  else
    let r := json.Unmarshal kle.ComponentConfig.structType e.LeaderElectionConfigJson
      kle.ComponentConfig.structType.zero
    match r.2 with
    | some err => ((some e.defaultLeaderElectionConfig, some err), e)
    | none => ((some { r.1 with Component := e.Component }, none), e)

/-- `func LeaderElectionComponentConfigToJSON(cfg *kle.ComponentConfig) (string, error)`. -/
def LeaderElectionComponentConfigToJSON (cfg : Option kle.ComponentConfig) :
    String × Option json.Error :=
  match cfg with
  | none => ("", none)
  | some c => c.Marshal

/-- `func GetSinkTimeout(logger *zap.SugaredLogger) int`, given the process
environment; the result is the integer returned and the messages logged. -/
def GetSinkTimeout (env : os.Environ) (logger : Option L) : Int × List (logging.Entry L) :=
  let str := os.Getenv env EnvSinkTimeout
  if str ≠ "" then
    let invalid : Int × List (logging.Entry L) :=
      (-1, match logger with
           | some l =>
             [{ logger := l, level := logging.Level.Error,
                message := EnvSinkTimeout ++
                  " environment value is invalid. It must be a integer greater than zero. (got " ++
                  str ++ ")" }]
           | none => [])
    match strconv.Atoi str with
    | Except.error _ => invalid
    | Except.ok duration => if duration < 0 then invalid else (duration, [])
  else (-1, [])

/-! ### Sample values -/

/-- A record as the constructor leaves it for component `sample-source` in
namespace `ns1` with an OIDC service account `acct` and nothing else set. -/
def exampleConfig : EnvConfig String :=
  { Component := "sample-source"
    Namespace := "ns1"
    Name := "adapter"
    ResourceGroup := "adapter.sources.knative.dev"
    Sink := ""
    Audience := none
    OIDCServiceAccountName := some "acct"
    CACerts := none
    CEOverrides := ""
    LoggingConfigJson := "\x7b\x7d"
    ObservabilityConfigJson := "\x7b\x7d"
    LeaderElectionConfigJson := ""
    EnvSinkTimeout := ""
    logger := none }

/-- A logging library to run the accessors with: a configuration is the
text it was read from, only `{}` is readable, and a logger is named after its
component. -/
def exampleLogging : logging.Lib String String where
  JSONToConfig := fun s => if s = "\x7b\x7d" then Except.ok s else Except.error "unreadable"
  NewConfigFromMap := fun _ => Except.ok "default"
  NewLoggerFromConfig := fun cfg component => component ++ ":" ++ cfg

/-- A struct type with a single `bool` field `enabled`, to run the generic
decoding accessors with. -/
def exampleStruct : json.StructType Bool where
  zero := false
  store := fun key x v =>
    if json.foldName key = json.foldName "enabled".toList then
      match x with
      | json.Value.null => (v, none)
      | json.Value.bool b => (b, none)
      | json.Value.number _ => (v, some (json.Error.UnmarshalTypeError "number"))
      | json.Value.string _ => (v, some (json.Error.UnmarshalTypeError "string"))
      | json.Value.array _ => (v, some (json.Error.UnmarshalTypeError "array"))
      | json.Value.object _ => (v, some (json.Error.UnmarshalTypeError "object"))
    else (v, none)

/-- A process environment in which only `K_SINK_TIMEOUT` is set, to `v`. -/
def exampleEnviron (v : String) : os.Environ :=
  fun key => if key = EnvSinkTimeout then some v else none

/-- A leader-election configuration that differs from the default in every
field. -/
def exampleLeaderElection : kle.ComponentConfig :=
  { Component := "sample-source"
    Buckets := 3
    LeaseDuration := 60 * Second
    RenewDeadline := 40 * Second
    RetryPeriod := -1 }

end adapter

namespace adapter

open Go

/-! ### Construction from the environment -/

/-- Environment variable `K_COMPONENT`. -/
def EnvConfigComponent : String := "K_COMPONENT"

/-- Environment variable `NAMESPACE`. -/
def EnvConfigNamespace : String := "NAMESPACE"

/-- Environment variable `NAME`. -/
def EnvConfigName : String := "NAME"

/-- Environment variable `K_RESOURCE_GROUP`. -/
def EnvConfigResourceGroup : String := "K_RESOURCE_GROUP"

/-- Environment variable `K_SINK`. -/
def EnvConfigSink : String := "K_SINK"

/-- Environment variable `K_AUDIENCE`. -/
def EnvConfigAudience : String := "K_AUDIENCE"

/-- Environment variable `K_OIDC_SERVICE_ACCOUNT`. -/
def EnvConfigOIDCServiceAccount : String := "K_OIDC_SERVICE_ACCOUNT"

/-- Environment variable `K_CA_CERTS`. -/
def EnvConfigCACert : String := "K_CA_CERTS"

/-- Environment variable `K_CE_OVERRIDES`. -/
def EnvConfigCEOverrides : String := "K_CE_OVERRIDES"

/-- Environment variable `K_LOGGING_CONFIG`. -/
def EnvConfigLoggingConfig : String := "K_LOGGING_CONFIG"

/-- Environment variable `K_OBSERVABILITY_CONFIG`. -/
def EnvConfigObservabilityConfig : String := "K_OBSERVABILITY_CONFIG"

/-- Environment variable `K_LEADER_ELECTION_CONFIG`. -/
def EnvConfigLeaderElectionConfig : String := "K_LEADER_ELECTION_CONFIG"

/-- The `default:"adapter"` tag of the field `Name`. -/
def defaultName : String := "adapter"

/-- The `default:"adapter.sources.knative.dev"` tag of the field
`ResourceGroup`. -/
def defaultResourceGroup : String := "adapter.sources.knative.dev"

/-- The `default` tag of `LoggingConfigJson` and `ObservabilityConfigJson`. -/
def defaultConfigJson : String := "\x7b\x7d"

/-- Modelled from the spec: how a default meets an input is decided by the
code that fills the record from its struct tags, which is not part of the
sources at hand. For name and resource group the spec says the default
applies "exactly when their respective inputs are empty or absent" and
never overrides "a non-empty supplied value". -/
def orDefaultIfEmpty (input : Option String) (dflt : String) : String :=
  match input with
  | none => dflt
  | some v => if v = "" then dflt else v

/-- Modelled from the spec: for the two raw JSON configurations the spec
lists `{}` as the "default if absent". -/
def orDefaultIfAbsent (input : Option String) (dflt : String) : String :=
  match input with
  | none => dflt
  | some v => v

/-- Modelled from the spec: the construction of an `EnvConfig` from the named
inputs is not part of the sources at hand (only the record with its
`envconfig` and `default` tags is). Each field is read from its variable;
an absent plain string is empty, an absent optional field is nil, name and
resource group take their defaults as `orDefaultIfEmpty` says, the logging
and observability texts as `orDefaultIfAbsent` says, and no logger is cached
yet. -/
def NewEnvConfig (L : Type) (env : os.Environ) : EnvConfig L :=
  { Component := os.Getenv env EnvConfigComponent
    Namespace := os.Getenv env EnvConfigNamespace
    Name := orDefaultIfEmpty (env EnvConfigName) defaultName
    ResourceGroup := orDefaultIfEmpty (env EnvConfigResourceGroup) defaultResourceGroup
    Sink := os.Getenv env EnvConfigSink
    Audience := env EnvConfigAudience
    OIDCServiceAccountName := env EnvConfigOIDCServiceAccount
    CACerts := env EnvConfigCACert
    CEOverrides := os.Getenv env EnvConfigCEOverrides
    LoggingConfigJson := orDefaultIfAbsent (env EnvConfigLoggingConfig) defaultConfigJson
    ObservabilityConfigJson := orDefaultIfAbsent (env EnvConfigObservabilityConfig) defaultConfigJson
    LeaderElectionConfigJson := os.Getenv env EnvConfigLeaderElectionConfig
    EnvSinkTimeout := os.Getenv env EnvSinkTimeout
    logger := none }

/-! ### `GetLogger` statement by statement

`GetLogger` reads and writes the field `logger` with no lock around its
check-and-create. To speak of calls that overlap, one call is cut at its
reads and writes of that field, and a schedule says which call moves next. -/

/-- Where one call of `GetLogger` stands: at the test `e.logger == nil`,
inside the branch before the logger is built, holding the logger built
before `e.logger = logger`, at `return e.logger`, returned, or panicked. -/
inductive LoggerCall (L : Type) where
  | atCheck : LoggerCall L
  | atCreate : LoggerCall L
  | atStore : L → LoggerCall L
  | atReturn : LoggerCall L
  | returned : Option L → LoggerCall L
  | panicked : String → LoggerCall L
  deriving DecidableEq, Repr

/-- What the calls in progress share: the record behind the receiver, and
the number of loggers built so far (calls of `NewLoggerFromConfig`). -/
structure Shared (L : Type) where
  config : EnvConfig L
  built : Nat
  deriving DecidableEq, Repr

/-- One move of a call of `GetLogger`. -/
def LoggerCall.step (lib : logging.Lib Cfg L) (pc : LoggerCall L) (s : Shared L) :
    LoggerCall L × Shared L :=
  match pc with
  | LoggerCall.atCheck =>
    match s.config.logger with
    | none => (LoggerCall.atCreate, s)
    | some _ => (LoggerCall.atReturn, s)
  | LoggerCall.atCreate =>
    let cfg : Except String Cfg :=
      match lib.JSONToConfig s.config.LoggingConfigJson with
      | Except.ok loggingConfig => Except.ok loggingConfig
      | Except.error _ =>
        match lib.NewConfigFromMap [] with
        | Except.ok loggingConfig => Except.ok loggingConfig
        | Except.error err => Except.error err
    match cfg with
    | Except.error err => (LoggerCall.panicked err, s)
    | Except.ok loggingConfig =>
      (LoggerCall.atStore (lib.NewLoggerFromConfig loggingConfig s.config.Component),
       { s with built := s.built + 1 })
  | LoggerCall.atStore logger =>
    (LoggerCall.atReturn, { s with config := { s.config with logger := some logger } })
  | LoggerCall.atReturn => (LoggerCall.returned s.config.logger, s)
  | LoggerCall.returned l => (LoggerCall.returned l, s)
  | LoggerCall.panicked err => (LoggerCall.panicked err, s)

/-- Several calls of `GetLogger` on one record, and what they share. -/
structure Calls (L : Type) where
  calls : List (LoggerCall L)
  shared : Shared L
  deriving DecidableEq, Repr

/-- The call numbered `i` makes one move (nothing happens when there is no
such call). -/
def Calls.move (lib : logging.Lib Cfg L) (i : Nat) (st : Calls L) : Calls L :=
  match st.calls.get? i with
  | none => st
  | some pc =>
    let r := pc.step lib st.shared
    { calls := st.calls.set i r.1, shared := r.2 }

/-- Run a schedule: the list of the calls that move, in order. -/
def Calls.run (lib : logging.Lib Cfg L) : List Nat → Calls L → Calls L
  | [], st => st
  | i :: rest, st => Calls.run lib rest (Calls.move lib i st)

/-- First calls of `GetLogger` by `n` workers on the record `e`, none of
them started. -/
def Calls.start (n : Nat) (e : EnvConfig L) : Calls L :=
  { calls := List.replicate n LoggerCall.atCheck, shared := { config := e, built := 0 } }

/-- The schedule in which the calls numbered `k`, `k+1`, ..., `k+n-1` run one
after another, each from its first move to its return (four moves). -/
def inTurn : Nat → Nat → List Nat
  | _, 0 => []
  | k, n + 1 => [k, k, k, k] ++ inTurn (k + 1) n

end adapter

/-! ## pkg/apis/samples/v1alpha1 -/

namespace v1alpha1

/-- `SampleSourceSpec`; `D` is `duckv1.Destination`. -/
structure SampleSourceSpec (D : Type) where
  ServiceAccountName : String
  Interval : String
  Sink : Option D
  deriving DecidableEq, Repr

/-- `SampleSourceStatus`; `DS` is `duckv1.Status`, `U` is `apis.URL`. -/
structure SampleSourceStatus (DS U : Type) where
  Status : DS
  SinkURI : Option U
  deriving DecidableEq, Repr

/-- `SampleSource`; `TM` is `metav1.TypeMeta`, `OM` is `metav1.ObjectMeta`. -/
structure SampleSource (TM OM D DS U : Type) where
  TypeMeta : TM
  ObjectMeta : OM
  Spec : SampleSourceSpec D
  Status : SampleSourceStatus DS U
  deriving DecidableEq, Repr

/-- `func (s *SampleSource) SetDefaults(ctx context.Context)`: the receiver
may be nil; the result is the object behind the receiver after the call.
The context is not used. -/
def SampleSource.SetDefaults {TM OM D DS U : Type} (s : Option (SampleSource TM OM D DS U)) :
    Option (SampleSource TM OM D DS U) :=
  match s with
  | none => none
  | some v =>
    if v.Spec.ServiceAccountName = "" then
      some { v with Spec := { v.Spec with ServiceAccountName := "default" } }
    else some v

/-- A `SampleSource` with no service account, with unit metadata and status. -/
def exampleSource : SampleSource Unit Unit String Unit String :=
  { TypeMeta := ()
    ObjectMeta := ()
    Spec := { ServiceAccountName := "", Interval := "10s", Sink := some "sink" }
    Status := { Status := (), SinkURI := none } }

end v1alpha1

/-! # Properties

## Numbers and JSON text -/

namespace Go.strconv

theorem toNat_ofNat_small (n : Nat) (h : n < 0xD800) : (Char.ofNat n).toNat = n := by
  have hv : n.isValidChar := Or.inl h
  simp [Char.ofNat, hv, Char.ofNatAux, Char.toNat, UInt32.toNat]

theorem toNat_digitChar (d : Nat) (h : d < 10) : (digitChar d).toNat = 48 + d := by
  unfold digitChar
  rw [toNat_ofNat_small _ (by simp; omega)]
  simp

theorem isDigit_iff (c : Char) : isDigit c = true ↔ 48 ≤ c.toNat ∧ c.toNat ≤ 57 := by
  simp [isDigit]

theorem isDigit_digitChar (d : Nat) (h : d < 10) : isDigit (digitChar d) = true := by
  rw [isDigit_iff, toNat_digitChar d h]; omega

theorem formatDigits_acc (fuel u : Nat) (acc : List Char) :
    formatDigits fuel u acc = formatDigits fuel u [] ++ acc := by
  induction fuel generalizing u acc with
  | zero => simp [formatDigits]
  | succ k ih =>
    unfold formatDigits
    split
    · simp
    · rw [ih (u / 10) (digitChar (u % 10) :: acc), ih (u / 10) [digitChar (u % 10)]]
      simp

theorem parseUintLoop_snoc (m : Nat) (xs : List Char) (c : Char) (a : Nat) :
    parseUintLoop m (xs ++ [c]) a =
      match parseUintLoop m xs a with
      | Except.ok n => parseUintLoop m [c] n
      | Except.error e => Except.error e := by
  induction xs generalizing a with
  | nil => simp [parseUintLoop]
  | cons x xs ih =>
    simp only [List.cons_append, parseUintLoop]
    split
    · split
      · rfl
      · exact ih _
    · rfl

/-- Shape of the digits `formatDigits` writes: a first digit that is `0` only
for the number zero, then digits, and reading them back gives the number. -/
theorem formatDigits_spec (m fuel u : Nat) (hf : u < fuel) (hm : u ≤ m) :
    ∃ c ds, formatDigits fuel u [] = c :: ds ∧ isDigit c = true ∧
      (∀ x ∈ ds, isDigit x = true) ∧ (c = '0' → ds = [] ∧ u = 0) ∧
      parseUintLoop m (c :: ds) 0 = Except.ok u := by
  induction fuel generalizing u with
  | zero => omega
  | succ k ih =>
    unfold formatDigits
    by_cases h10 : u < 10
    · refine ⟨digitChar u, [], by simp [h10], isDigit_digitChar u h10, by simp, ?_, ?_⟩
      · intro h0
        have := congrArg Char.toNat h0
        rw [toNat_digitChar u h10] at this
        simp at this
        exact ⟨rfl, this⟩
      · have hd := isDigit_digitChar u h10
        simp only [parseUintLoop, hd, toNat_digitChar u h10]
        simp
        omega
    · have hlt : u / 10 < k := by omega
      have hle : u / 10 ≤ m := by omega
      obtain ⟨c, ds, hfd, hc, hds, h0, hp⟩ := ih (u / 10) hlt hle
      refine ⟨c, ds ++ [digitChar (u % 10)], ?_, hc, ?_, ?_, ?_⟩
      · simp only [h10, if_false]
        rw [formatDigits_acc, hfd]; simp
      · intro x hx
        rcases List.mem_append.mp hx with h | h
        · exact hds x h
        · simp at h; subst h; exact isDigit_digitChar _ (Nat.mod_lt _ (by decide))
      · intro hc0
        have := (h0 hc0).2
        omega
      · have := parseUintLoop_snoc m (c :: ds) (digitChar (u % 10)) 0
        simp only [List.cons_append] at this
        rw [this, hp]
        have hd := isDigit_digitChar (u % 10) (Nat.mod_lt _ (by decide))
        simp only [parseUintLoop, hd, toNat_digitChar (u % 10) (Nat.mod_lt _ (by decide))]
        have e : u / 10 * 10 + (48 + u % 10 - '0'.toNat) = u := by
          simp; omega
        rw [e]
        simp
        omega

end Go.strconv

namespace Go.strconv

theorem FormatUint_spec (m u : Nat) (hm : u ≤ m) :
    ∃ c ds, FormatUint u = c :: ds ∧ isDigit c = true ∧
      (∀ x ∈ ds, isDigit x = true) ∧ (c = '0' → ds = [] ∧ u = 0) ∧
      parseUintLoop m (c :: ds) 0 = Except.ok u :=
  formatDigits_spec m (u + 1) u (Nat.lt_succ_self u) hm

theorem ParseUint_FormatUint (u bits : Nat) (h : u < 2 ^ bits) :
    ParseUint (FormatUint u) bits = Except.ok u := by
  obtain ⟨c, ds, hf, -, -, -, hp⟩ := FormatUint_spec (2 ^ bits - 1) u (by omega)
  simp [ParseUint, hf, hp]

theorem isDigit_ne_sign (c : Char) (h : isDigit c = true) : c ≠ '+' ∧ c ≠ '-' := by
  rw [isDigit_iff] at h
  constructor <;> (intro hc; subst hc; simp at h)

theorem ParseInt_FormatInt (i : Int) (hlo : - (2 ^ 63 : Int) ≤ i) (hhi : i < 2 ^ 63) :
    ParseInt (FormatInt i) 64 = Except.ok i := by
  have habs : i.natAbs < 2 ^ 64 := by omega
  have hpu := ParseUint_FormatUint i.natAbs 64 habs
  unfold FormatInt
  by_cases hneg : i < 0
  · simp only [hneg, if_true, ParseInt]
    simp [hpu]
    have h1 : ¬ (9223372036854775808 < i.natAbs) := by omega
    have h2 : -|i| = i := by rw [abs_of_neg hneg]; omega
    simp [h1, h2]
  · obtain ⟨c, ds, hf, hc, -, -, -⟩ := FormatUint_spec i.natAbs i.natAbs (Nat.le_refl _)
    have hs := isDigit_ne_sign c hc
    simp only [hneg, if_false]
    rw [hf] at hpu ⊢
    simp only [ParseInt]
    simp [hs.1, hs.2, hpu]
    have h1 : ¬ (9223372036854775808 ≤ i.natAbs) := by omega
    have h2 : |i| = i := abs_of_nonneg (by omega)
    simp [h1, h2]

theorem Atoi_FormatInt (i : Int) (hlo : - (2 ^ 63 : Int) ≤ i) (hhi : i < 2 ^ 63) :
    Atoi (String.mk (FormatInt i)) = Except.ok i := by
  simp [Atoi, intSize, ParseInt_FormatInt i hlo hhi]

end Go.strconv

namespace Go.json

open Go.strconv

theorem span_digits (ds : List Char) (x : Char) (r : List Char)
    (hds : ∀ c ∈ ds, isDigit c = true) (hx : isDigit x = false) :
    (ds ++ x :: r).span isDigit = (ds, x :: r) := by
  rw [List.span_eq_take_drop, List.takeWhile_append_of_pos hds,
    List.dropWhile_append_of_pos hds]
  simp [hx]

theorem scanFrac_stop (acc : List Char) (x : Char) (r : List Char) (hx : x = ',' ∨ x = '}') :
    scanFrac acc (x :: r) = some (acc, x :: r) := by
  rcases hx with h | h <;> subst h <;> simp [scanFrac, scanExp]

theorem scanInt_FormatUint (u : Nat) (x : Char) (r : List Char) (hx : x = ',' ∨ x = '}') :
    scanInt (FormatUint u ++ x :: r) = some (FormatUint u, x :: r) := by
  obtain ⟨c, ds, hf, hc, hds, h0, -⟩ := FormatUint_spec u u (Nat.le_refl _)
  have hxd : isDigit x = false := by
    rcases hx with h | h <;> subst h <;> decide
  rw [hf]
  simp only [List.cons_append, scanInt]
  by_cases hc0 : c = '0'
  · obtain ⟨hnil, -⟩ := h0 hc0
    subst hnil
    simp only [hc0, if_true, List.nil_append]
    exact scanFrac_stop _ x r hx
  · simp only [hc0, if_false, hc, if_true, span_digits ds x r hds hxd]
    exact scanFrac_stop _ x r hx

theorem FormatUint_head (u : Nat) :
    ∃ c ds, FormatUint u = c :: ds ∧ isDigit c = true := by
  obtain ⟨c, ds, hf, hc, -⟩ := FormatUint_spec u u (Nat.le_refl _)
  exact ⟨c, ds, hf, hc⟩

theorem scanNumber_FormatInt (i : Int) (x : Char) (r : List Char) (hx : x = ',' ∨ x = '}') :
    scanNumber (FormatInt i ++ x :: r) = some (FormatInt i, x :: r) := by
  unfold FormatInt
  by_cases hneg : i < 0
  · simp [hneg, scanNumber, scanInt_FormatUint i.natAbs x r hx]
  · obtain ⟨c, ds, hf, hc⟩ := FormatUint_head i.natAbs
    have hs := isDigit_ne_sign c hc
    have := scanInt_FormatUint i.natAbs x r hx
    simp only [hneg, if_false]
    rw [hf] at this ⊢
    simp only [List.cons_append, scanNumber, hs.2, if_false]
    exact this

theorem scanNumber_FormatUint (u : Nat) (x : Char) (r : List Char) (hx : x = ',' ∨ x = '}') :
    scanNumber (FormatUint u ++ x :: r) = some (FormatUint u, x :: r) := by
  obtain ⟨c, ds, hf, hc⟩ := FormatUint_head u
  have hs := isDigit_ne_sign c hc
  have := scanInt_FormatUint u x r hx
  rw [hf] at this ⊢
  simp only [List.cons_append, scanNumber, hs.2, if_false]
  exact this

/-- A value that starts with a digit or a minus sign is read by the number
scanner. -/
theorem parseValue_number (d : Nat) (c : Char) (cs lit rest : List Char)
    (hc : isDigit c = true ∨ c = '-')
    (hs : scanNumber (c :: cs) = some (lit, rest)) :
    parseValue d (c :: cs) = some (Value.number lit, rest) := by
  have hne : c ≠ '{' ∧ c ≠ '[' ∧ c ≠ '"' ∧ c ≠ 't' ∧ c ≠ 'f' ∧ c ≠ 'n' ∧ isSpace c = false := by
    rcases hc with h | h
    · rw [isDigit_iff] at h
      refine ⟨?_, ?_, ?_, ?_, ?_, ?_, ?_⟩ <;>
        first
          | (intro hc; subst hc; simp at h)
          | (simp only [isSpace, Bool.or_eq_false_iff, decide_eq_false_iff_not]
             refine ⟨⟨⟨?_, ?_⟩, ?_⟩, ?_⟩ <;> (intro hc; subst hc; simp at h))
    · subst h; decide
  obtain ⟨h1, h2, h3, h4, h5, h6, h7⟩ := hne
  unfold parseValue
  simp [skipSpace, h7, h1, h2, h3, h4, h5, h6, hs]

end Go.json

namespace Go.json

open Go.strconv

theorem hexVal_hexDigit : ∀ k, k < 16 → hexVal (hexDigit k) = some k := by
  decide

theorem getu4_low (n : Nat) (h : n < 256) :
    getu4 '0' '0' (hexDigit (n / 16)) (hexDigit (n % 16)) = some n := by
  have h1 := hexVal_hexDigit (n / 16) (by omega)
  have h2 := hexVal_hexDigit (n % 16) (by omega)
  have h0 : hexVal '0' = some 0 := by decide
  simp only [getu4, h0, h1, h2]
  simp
  omega

theorem getu4_linesep (n : Nat) (h : n = 0x2028 ∨ n = 0x2029) :
    getu4 '2' '0' '2' (hexDigit (n % 16)) = some n := by
  rcases h with h | h <;> subst h <;> decide

theorem char_eq_of_toNat {c d : Char} (h : c.toNat = d.toNat) : c = d := by
  have := congrArg Char.ofNat h
  simpa using this

theorem scanString_quote (cs : List Char) : scanString ('"' :: cs) = some ([], cs) := by
  rw [scanString.eq_def]; simp

theorem scanString_plain (c : Char) (cs : List Char) (hq : c ≠ '"') (hb : c ≠ '\\')
    (h20 : ¬ c.toNat < 32) :
    scanString (c :: cs) = (scanString cs).map (fun p => (StrItem.lit c :: p.1, p.2)) := by
  rw [scanString.eq_def]; simp [hq, hb, h20]

theorem scanString_simple (e x : Char) (cs : List Char) (hu : e ≠ 'u')
    (hx : simpleEscape e = some x) :
    scanString ('\\' :: e :: cs) = (scanString cs).map (fun p => (StrItem.lit x :: p.1, p.2)) := by
  rw [scanString.eq_def]; simp [hu, hx]

theorem scanString_u (a b c d : Char) (u : Nat) (cs : List Char) (hx : getu4 a b c d = some u) :
    scanString ('\\' :: 'u' :: a :: b :: c :: d :: cs) =
      (scanString cs).map (fun p => (StrItem.esc u :: p.1, p.2)) := by
  rw [scanString.eq_def]; simp [hx]

/-- Reading back what the encoder writes for one rune: the string scanner
consumes exactly these characters and yields one item that unquotes to the
rune. -/
theorem scanString_escapeRune (c : Char) (rest : List Char) :
    ∃ it, scanString (escapeRune c ++ rest) =
        (scanString rest).map (fun p => (it :: p.1, p.2)) ∧
      ∀ r, unquoteLoop none (it :: r) = c :: unquoteLoop none r := by
  unfold escapeRune
  by_cases h80 : c.toNat < 0x80
  · simp only [h80, if_true]
    by_cases hsafe : htmlSafe c = true
    · refine ⟨StrItem.lit c, ?_, fun r => by simp [unquoteLoop]⟩
      simp only [hsafe, if_true, List.singleton_append]
      simp only [htmlSafe, Bool.and_eq_true, decide_eq_true_eq, Bool.not_eq_true',
        Bool.or_eq_false_iff, decide_eq_false_iff_not] at hsafe
      obtain ⟨⟨h20, -⟩, ⟨⟨⟨⟨hq, -⟩, -⟩, -⟩, hb⟩⟩ := hsafe
      exact scanString_plain c rest hq hb (by omega)
    · simp only [hsafe, Bool.false_eq_true, if_false]
      by_cases hbq : c = '\\' ∨ c = '"'
      · refine ⟨StrItem.lit c, ?_, fun r => by simp [unquoteLoop]⟩
        simp only [hbq, if_true]
        rcases hbq with h | h <;> subst h <;>
          exact scanString_simple _ _ rest (by decide) (by decide)
      · simp only [hbq, if_false]
        by_cases h8 : c = '\x08'
        · refine ⟨StrItem.lit c, ?_, fun r => by simp [unquoteLoop]⟩
          subst h8; exact scanString_simple _ _ rest (by decide) (by decide)
        by_cases hc : c = '\x0c'
        · refine ⟨StrItem.lit c, ?_, fun r => by simp [unquoteLoop]⟩
          subst hc; exact scanString_simple _ _ rest (by decide) (by decide)
        by_cases hn : c = '\n'
        · refine ⟨StrItem.lit c, ?_, fun r => by simp [unquoteLoop]⟩
          subst hn; exact scanString_simple _ _ rest (by decide) (by decide)
        by_cases hr : c = '\r'
        · refine ⟨StrItem.lit c, ?_, fun r => by simp [unquoteLoop]⟩
          subst hr; exact scanString_simple _ _ rest (by decide) (by decide)
        by_cases ht : c = '\t'
        · refine ⟨StrItem.lit c, ?_, fun r => by simp [unquoteLoop]⟩
          subst ht; exact scanString_simple _ _ rest (by decide) (by decide)
        simp only [h8, hc, hn, hr, ht, if_false]
        refine ⟨StrItem.esc c.toNat, ?_, fun r => ?_⟩
        · exact scanString_u _ _ _ _ _ rest (getu4_low c.toNat (by omega))
        · have h1 : ¬ (55296 ≤ c.toNat ∧ c.toNat < 56320) := by omega
          have h2 : ¬ (56320 ≤ c.toNat ∧ c.toNat < 57344) := by omega
          simp [unquoteLoop, h1, h2]
  · simp only [h80, if_false]
    by_cases hls : c.toNat = 0x2028 ∨ c.toNat = 0x2029
    · simp only [hls, if_true]
      refine ⟨StrItem.esc c.toNat, ?_, fun r => ?_⟩
      · exact scanString_u _ _ _ _ _ rest (getu4_linesep c.toNat hls)
      · have h1 : ¬ (55296 ≤ c.toNat ∧ c.toNat < 56320) := by omega
        have h2 : ¬ (56320 ≤ c.toNat ∧ c.toNat < 57344) := by omega
        simp [unquoteLoop, h1, h2]
    · simp only [hls, if_false]
      refine ⟨StrItem.lit c, ?_, fun r => by simp [unquoteLoop]⟩
      have hq : c ≠ '"' := by intro h; subst h; simp at h80
      have hb : c ≠ '\\' := by intro h; subst h; simp at h80
      exact scanString_plain c rest hq hb (by omega)

/-- Reading back an encoded string body up to its closing quote. -/
theorem scanString_escaped (s rest : List Char) :
    ∃ items, scanString (s.flatMap escapeRune ++ '"' :: rest) = some (items, rest) ∧
      unquote items = s := by
  induction s with
  | nil => exact ⟨[], by simp [scanString_quote], by simp [unquote, unquoteLoop]⟩
  | cons c s ih =>
    obtain ⟨items, hs, hu⟩ := ih
    obtain ⟨it, hsc, hit⟩ := scanString_escapeRune c (s.flatMap escapeRune ++ '"' :: rest)
    refine ⟨it :: items, ?_, ?_⟩
    · simp only [List.flatMap_cons, List.append_assoc]
      rw [hsc, hs]; rfl
    · unfold unquote at hu ⊢
      rw [hit, hu]

theorem parseValue_string (d : Nat) (s rest : List Char) :
    parseValue d (appendString s ++ rest) = some (Value.string s, rest) := by
  obtain ⟨items, hs, hu⟩ := scanString_escaped s rest
  unfold parseValue appendString
  simp [skipSpace, isSpace, hs, hu]

end Go.json

namespace Go.json

open Go.strconv

theorem parseValue_FormatUint (d u : Nat) (x : Char) (r : List Char) (hx : x = ',' ∨ x = '}') :
    parseValue d (FormatUint u ++ x :: r) = some (Value.number (FormatUint u), x :: r) := by
  obtain ⟨c, ds, hf, hc⟩ := FormatUint_head u
  have hs := scanNumber_FormatUint u x r hx
  rw [hf] at hs ⊢
  exact parseValue_number d c _ _ _ (Or.inl hc) hs

theorem parseValue_FormatInt (d : Nat) (i : Int) (x : Char) (r : List Char)
    (hx : x = ',' ∨ x = '}') :
    parseValue d (FormatInt i ++ x :: r) = some (Value.number (FormatInt i), x :: r) := by
  have hs := scanNumber_FormatInt i x r hx
  have hhead : ∃ c cs, FormatInt i = c :: cs ∧ (isDigit c = true ∨ c = '-') := by
    unfold FormatInt
    by_cases hneg : i < 0
    · exact ⟨'-', FormatUint i.natAbs, by simp [hneg], Or.inr rfl⟩
    · obtain ⟨c, ds, hf, hc⟩ := FormatUint_head i.natAbs
      exact ⟨c, ds, by simp [hneg, hf], Or.inl hc⟩
  obtain ⟨c, cs, hf, hc⟩ := hhead
  rw [hf] at hs ⊢
  exact parseValue_number d c _ _ _ hc hs

/-- One round of the member loop on `"key":value,`. -/
theorem membersLoop_more (pv : List Char → Option (Value × List Char)) (n : Nat)
    (key vtext rest : List Char) (v : Value)
    (hv : pv (vtext ++ ',' :: rest) = some (v, ',' :: rest)) :
    membersLoop pv (n + 1) (appendString key ++ ':' :: (vtext ++ ',' :: rest)) =
      (membersLoop pv n rest).map (fun p => ((key, v) :: p.1, p.2)) := by
  obtain ⟨items, hs, hu⟩ := scanString_escaped key (':' :: (vtext ++ ',' :: rest))
  rw [membersLoop]
  simp [appendString, skipSpace, isSpace, hs, hu, hv]

/-- The last round of the member loop, on `"key":value}`. -/
theorem membersLoop_last (pv : List Char → Option (Value × List Char)) (n : Nat)
    (key vtext rest : List Char) (v : Value)
    (hv : pv (vtext ++ '}' :: rest) = some (v, '}' :: rest)) :
    membersLoop pv (n + 1) (appendString key ++ ':' :: (vtext ++ '}' :: rest)) =
      some ([(key, v)], rest) := by
  obtain ⟨items, hs, hu⟩ := scanString_escaped key (':' :: (vtext ++ '}' :: rest))
  rw [membersLoop]
  simp [appendString, skipSpace, isSpace, hs, hu, hv]

theorem parseValue_object (d : Nat) (r : List Char) :
    parseValue (d + 1) ('{' :: '"' :: r) =
      (membersLoop (parseValue d) ('"' :: r).length ('"' :: r)).map
        (fun p => (Value.object p.1, p.2)) := by
  rw [parseValue]
  simp [skipSpace, isSpace]

end Go.json

namespace kle

open Go Go.json Go.strconv

theorem parseValue_object_key (d : Nat) (key rest : List Char) :
    parseValue (d + 1) ('{' :: (appendString key ++ rest)) =
      (membersLoop (parseValue d) (appendString key ++ rest).length (appendString key ++ rest)).map
        (fun p => (Value.object p.1, p.2)) := by
  unfold appendString
  exact parseValue_object d _

/-- The text `Marshal` writes, grouped as the reader consumes it. -/
theorem Marshal_text (c : ComponentConfig) :
    (c.Marshal).1.toList =
      '{' :: (appendString Field.Component.name ++ ':' :: (appendString c.Component.toList ++ ',' ::
        (appendString Field.Buckets.name ++ ':' :: (FormatUint c.Buckets ++ ',' ::
        (appendString Field.LeaseDuration.name ++ ':' :: (FormatInt c.LeaseDuration ++ ',' ::
        (appendString Field.RenewDeadline.name ++ ':' :: (FormatInt c.RenewDeadline ++ ',' ::
        (appendString Field.RetryPeriod.name ++ ':' :: (FormatInt c.RetryPeriod ++ '}' :: [])))))))))) := by
  have k1 : appendString Field.Component.name = "\"Component\"".toList := by decide
  have k2 : appendString Field.Buckets.name = "\"Buckets\"".toList := by decide
  have k3 : appendString Field.LeaseDuration.name = "\"LeaseDuration\"".toList := by decide
  have k4 : appendString Field.RenewDeadline.name = "\"RenewDeadline\"".toList := by decide
  have k5 : appendString Field.RetryPeriod.name = "\"RetryPeriod\"".toList := by decide
  simp [ComponentConfig.Marshal, String.toList, k1, k2, k3, k4, k5]

/-- The document the reader builds from the text `Marshal` writes. -/
theorem parse_Marshal (c : ComponentConfig) :
    parse (c.Marshal).1.toList = some (Value.object
      [(Field.Component.name, Value.string c.Component.toList),
       (Field.Buckets.name, Value.number (FormatUint c.Buckets)),
       (Field.LeaseDuration.name, Value.number (FormatInt c.LeaseDuration)),
       (Field.RenewDeadline.name, Value.number (FormatInt c.RenewDeadline)),
       (Field.RetryPeriod.name, Value.number (FormatInt c.RetryPeriod))]) := by
  rw [Marshal_text]
  generalize hpv : parseValue 9999 = pv
  have m5 : ∀ n, membersLoop pv (n + 1)
      (appendString Field.RetryPeriod.name ++ ':' :: (FormatInt c.RetryPeriod ++ '}' :: [])) =
      some ([(Field.RetryPeriod.name, Value.number (FormatInt c.RetryPeriod))], []) := by
    intro n
    exact membersLoop_last pv n _ _ _ _ (by rw [← hpv]; exact parseValue_FormatInt _ _ _ _ (Or.inr rfl))
  have m4 : ∀ n, membersLoop pv (n + 2)
      (appendString Field.RenewDeadline.name ++ ':' :: (FormatInt c.RenewDeadline ++ ',' ::
        (appendString Field.RetryPeriod.name ++ ':' :: (FormatInt c.RetryPeriod ++ '}' :: [])))) =
      some ([(Field.RenewDeadline.name, Value.number (FormatInt c.RenewDeadline)),
             (Field.RetryPeriod.name, Value.number (FormatInt c.RetryPeriod))], []) := by
    intro n
    rw [membersLoop_more pv (n + 1) _ _ _ _
      (by rw [← hpv]; exact parseValue_FormatInt _ _ _ _ (Or.inl rfl)), m5 n]
    rfl
  have m3 : ∀ n, membersLoop pv (n + 3)
      (appendString Field.LeaseDuration.name ++ ':' :: (FormatInt c.LeaseDuration ++ ',' ::
        (appendString Field.RenewDeadline.name ++ ':' :: (FormatInt c.RenewDeadline ++ ',' ::
        (appendString Field.RetryPeriod.name ++ ':' :: (FormatInt c.RetryPeriod ++ '}' :: [])))))) =
      some ([(Field.LeaseDuration.name, Value.number (FormatInt c.LeaseDuration)),
             (Field.RenewDeadline.name, Value.number (FormatInt c.RenewDeadline)),
             (Field.RetryPeriod.name, Value.number (FormatInt c.RetryPeriod))], []) := by
    intro n
    rw [membersLoop_more pv (n + 2) _ _ _ _
      (by rw [← hpv]; exact parseValue_FormatInt _ _ _ _ (Or.inl rfl)), m4 n]
    rfl
  have m2 : ∀ n, membersLoop pv (n + 4)
      (appendString Field.Buckets.name ++ ':' :: (FormatUint c.Buckets ++ ',' ::
        (appendString Field.LeaseDuration.name ++ ':' :: (FormatInt c.LeaseDuration ++ ',' ::
        (appendString Field.RenewDeadline.name ++ ':' :: (FormatInt c.RenewDeadline ++ ',' ::
        (appendString Field.RetryPeriod.name ++ ':' :: (FormatInt c.RetryPeriod ++ '}' :: [])))))))) =
      some ([(Field.Buckets.name, Value.number (FormatUint c.Buckets)),
             (Field.LeaseDuration.name, Value.number (FormatInt c.LeaseDuration)),
             (Field.RenewDeadline.name, Value.number (FormatInt c.RenewDeadline)),
             (Field.RetryPeriod.name, Value.number (FormatInt c.RetryPeriod))], []) := by
    intro n
    rw [membersLoop_more pv (n + 3) _ _ _ _
      (by rw [← hpv]; exact parseValue_FormatUint _ _ _ _ (Or.inl rfl)), m3 n]
    rfl
  have m1 : ∀ n, membersLoop pv (n + 5)
      (appendString Field.Component.name ++ ':' :: (appendString c.Component.toList ++ ',' ::
        (appendString Field.Buckets.name ++ ':' :: (FormatUint c.Buckets ++ ',' ::
        (appendString Field.LeaseDuration.name ++ ':' :: (FormatInt c.LeaseDuration ++ ',' ::
        (appendString Field.RenewDeadline.name ++ ':' :: (FormatInt c.RenewDeadline ++ ',' ::
        (appendString Field.RetryPeriod.name ++ ':' :: (FormatInt c.RetryPeriod ++ '}' :: [])))))))))) =
      some ([(Field.Component.name, Value.string c.Component.toList),
             (Field.Buckets.name, Value.number (FormatUint c.Buckets)),
             (Field.LeaseDuration.name, Value.number (FormatInt c.LeaseDuration)),
             (Field.RenewDeadline.name, Value.number (FormatInt c.RenewDeadline)),
             (Field.RetryPeriod.name, Value.number (FormatInt c.RetryPeriod))], []) := by
    intro n
    rw [membersLoop_more pv (n + 4) _ _ _ _
      (by rw [← hpv]; exact parseValue_string _ _ _), m2 n]
    rfl
  unfold parse maxNestingDepth
  rw [show (10000 : Nat) = 9999 + 1 from rfl, parseValue_object_key, hpv]
  generalize hlen : (appendString Field.Component.name ++ ':' :: (appendString c.Component.toList ++ ',' ::
        (appendString Field.Buckets.name ++ ':' :: (FormatUint c.Buckets ++ ',' ::
        (appendString Field.LeaseDuration.name ++ ':' :: (FormatInt c.LeaseDuration ++ ',' ::
        (appendString Field.RenewDeadline.name ++ ':' :: (FormatInt c.RenewDeadline ++ ',' ::
        (appendString Field.RetryPeriod.name ++ ':' :: (FormatInt c.RetryPeriod ++ '}' :: [])))))))))).length = len
  have hge : 5 ≤ len := by
    rw [← hlen]
    simp only [List.length_append, List.length_cons]
    omega
  obtain ⟨k, rfl⟩ : ∃ k, len = k + 5 := ⟨len - 5, by omega⟩
  rw [m1 k]
  simp [skipSpace]

end kle

namespace kle

open Go Go.json Go.strconv

/-- Decoding what `Marshal` wrote gives the configuration back, whatever
the target held before. -/
theorem Unmarshal_Marshal (c v : ComponentConfig) (h : c.InRange) :
    Unmarshal ComponentConfig.structType (c.Marshal).1 v = (c, none) := by
  obtain ⟨hb, ⟨hl1, hl2⟩, ⟨hr1, hr2⟩, ⟨hp1, hp2⟩⟩ := h
  have f1 : findField Field.all Field.name Field.Component.name = some Field.Component := by decide
  have f2 : findField Field.all Field.name Field.Buckets.name = some Field.Buckets := by decide
  have f3 : findField Field.all Field.name Field.LeaseDuration.name = some Field.LeaseDuration := by
    decide
  have f4 : findField Field.all Field.name Field.RenewDeadline.name = some Field.RenewDeadline := by
    decide
  have f5 : findField Field.all Field.name Field.RetryPeriod.name = some Field.RetryPeriod := by
    decide
  have u : ParseUint (FormatUint c.Buckets) 64 = Except.ok c.Buckets :=
    ParseUint_FormatUint _ _ (by omega)
  have i1 := ParseInt_FormatInt c.LeaseDuration hl1 hl2
  have i2 := ParseInt_FormatInt c.RenewDeadline hr1 hr2
  have i3 := ParseInt_FormatInt c.RetryPeriod hp1 hp2
  unfold Unmarshal
  rw [parse_Marshal]
  simp only [decodeObject, ComponentConfig.structType, ComponentConfig.store, f1, f2, f3, f4, f5,
    storeString, storeUint, storeInt, u, i1, i2, i3]
  have hb' : c.Buckets < 4294967296 := by omega
  have hl : -9223372036854775808 ≤ c.LeaseDuration ∧ c.LeaseDuration < 9223372036854775808 := by
    omega
  have hr : -9223372036854775808 ≤ c.RenewDeadline ∧ c.RenewDeadline < 9223372036854775808 := by
    omega
  have hp : -9223372036854775808 ≤ c.RetryPeriod ∧ c.RetryPeriod < 9223372036854775808 := by
    omega
  simp [hb', hl, hr, hp]

end kle

/-! ## The accessors of `EnvConfig` -/

namespace adapter

open Go

theorem length_pos_iff_ne_empty (s : String) : 0 < s.length ↔ s ≠ "" := by
  cases s with
  | mk data =>
    cases data with
    | nil => simp [String.length]
    | cons c cs =>
      simp only [String.length, List.length_cons, Nat.zero_lt_succ, true_iff]
      intro h
      have := congrArg String.data h
      simp at this

/-- C1: when the leader-election JSON is non-empty and `json.Unmarshal`
reports an error on it, `GetLeaderElectionConfig` returns both that error and
the fixed default (buckets 1, lease 15s, renew deadline 10s, retry period 2s,
in nanoseconds) carrying the record's own component; the record is unchanged. -/
theorem GetLeaderElectionConfig_decode_failure {L : Type} (e : EnvConfig L) (err : json.Error)
    (hne : e.LeaderElectionConfigJson ≠ "")
    (hfail : (json.Unmarshal kle.ComponentConfig.structType e.LeaderElectionConfigJson
      kle.ComponentConfig.structType.zero).2 = some err) :
    e.GetLeaderElectionConfig =
      ((some { Component := e.Component, Buckets := 1, LeaseDuration := 15000000000,
               RenewDeadline := 10000000000, RetryPeriod := 2000000000 }, some err), e) := by
  unfold EnvConfig.GetLeaderElectionConfig
  simp only [hne, if_false, hfail]
  rfl

/-- C1 at `{not json` (a syntax error) and at `{"Buckets":"x"}` (a type
error): the default comes back together with the error. -/
theorem GetLeaderElectionConfig_decode_failure_witness :
    ({ exampleConfig with LeaderElectionConfigJson := "\x7bnot json" }).GetLeaderElectionConfig =
      ((some { Component := "sample-source", Buckets := 1, LeaseDuration := 15000000000,
               RenewDeadline := 10000000000, RetryPeriod := 2000000000 },
        some json.Error.SyntaxError),
       { exampleConfig with LeaderElectionConfigJson := "\x7bnot json" }) ∧
    ({ exampleConfig with
        LeaderElectionConfigJson := "\x7b\"Buckets\":\"x\"\x7d" }).GetLeaderElectionConfig =
      ((some { Component := "sample-source", Buckets := 1, LeaseDuration := 15000000000,
               RenewDeadline := 10000000000, RetryPeriod := 2000000000 },
        some (json.Error.UnmarshalTypeError "string")),
       { exampleConfig with LeaderElectionConfigJson := "\x7b\"Buckets\":\"x\"\x7d" }) :=
  ⟨GetLeaderElectionConfig_decode_failure
      { exampleConfig with LeaderElectionConfigJson := "\x7bnot json" } json.Error.SyntaxError
      (by decide) (by decide),
   GetLeaderElectionConfig_decode_failure
      { exampleConfig with LeaderElectionConfigJson := "\x7b\"Buckets\":\"x\"\x7d" }
      (json.Error.UnmarshalTypeError "string") (by decide) (by decide)⟩

/-- C2: when the leader-election JSON is the empty string,
`GetLeaderElectionConfig` returns a nil error and the fixed default (buckets
1, lease 15s, renew deadline 10s, retry period 2s, in nanoseconds) carrying
the record's own component. -/
theorem GetLeaderElectionConfig_empty {L : Type} (e : EnvConfig L)
    (hempty : e.LeaderElectionConfigJson = "") :
    e.GetLeaderElectionConfig =
      ((some { Component := e.Component, Buckets := 1, LeaseDuration := 15000000000,
               RenewDeadline := 10000000000, RetryPeriod := 2000000000 }, none), e) := by
  unfold EnvConfig.GetLeaderElectionConfig
  simp only [hempty, if_true]
  rfl

/-- C2 at the sample record, whose leader-election JSON is empty. -/
theorem GetLeaderElectionConfig_empty_witness :
    exampleConfig.GetLeaderElectionConfig =
      ((some { Component := "sample-source", Buckets := 1, LeaseDuration := 15000000000,
               RenewDeadline := 10000000000, RetryPeriod := 2000000000 }, none), exampleConfig) :=
  GetLeaderElectionConfig_empty exampleConfig (by decide)

/-- C3: when the non-empty leader-election JSON decodes without error to
`d`, `GetLeaderElectionConfig` returns a nil error and a configuration whose
component is the record's own and whose other fields are those of `d`. -/
theorem GetLeaderElectionConfig_decode_success {L : Type} (e : EnvConfig L)
    (d : kle.ComponentConfig) (hne : e.LeaderElectionConfigJson ≠ "")
    (hok : json.Unmarshal kle.ComponentConfig.structType e.LeaderElectionConfigJson
      kle.ComponentConfig.structType.zero = (d, none)) :
    e.GetLeaderElectionConfig =
      ((some { Component := e.Component, Buckets := d.Buckets, LeaseDuration := d.LeaseDuration,
               RenewDeadline := d.RenewDeadline, RetryPeriod := d.RetryPeriod }, none), e) := by
  unfold EnvConfig.GetLeaderElectionConfig
  simp only [hne, if_false, hok]

/-- C3 at a document that names another component: the component returned
is the record's `sample-source`, the numbers are the document's. -/
theorem GetLeaderElectionConfig_decode_success_witness :
    ({ exampleConfig with
        LeaderElectionConfigJson :=
          "\x7b\"Component\":\"other\",\"Buckets\":3,\"leaseDuration\":5\x7d"
      }).GetLeaderElectionConfig =
      ((some { Component := "sample-source", Buckets := 3, LeaseDuration := 5,
               RenewDeadline := 0, RetryPeriod := 0 }, none),
       { exampleConfig with
          LeaderElectionConfigJson :=
            "\x7b\"Component\":\"other\",\"Buckets\":3,\"leaseDuration\":5\x7d" }) :=
  GetLeaderElectionConfig_decode_success
    { exampleConfig with
        LeaderElectionConfigJson :=
          "\x7b\"Component\":\"other\",\"Buckets\":3,\"leaseDuration\":5\x7d" }
    { Component := "other", Buckets := 3, LeaseDuration := 5, RenewDeadline := 0, RetryPeriod := 0 }
    (by decide) (by decide)

/-- C4: `GetSinktimeout` always returns an integer and never an error (its
only way not to return is the panic of `GetLogger`, excluded here by the
logging library building its default configuration from the empty map). The
integer is `n` when `strconv.Atoi` reads the raw text as `n`, with no check
of the sign, and `-1` when `strconv.Atoi` fails; in particular the decimal
text of any `int` gives that `int`, `30` gives 30, `-5` gives -5, and the
empty text and `abc` give -1. -/
theorem GetSinktimeout_total {Cfg L : Type} (lib : logging.Lib Cfg L) (e : EnvConfig L)
    (hdefault : ∃ cfg, lib.NewConfigFromMap [] = Except.ok cfg) :
    ∃ r, e.GetSinktimeout lib = Except.ok r ∧
      (∀ n, strconv.Atoi e.EnvSinkTimeout = Except.ok n → r.value = n) ∧
      ((∀ n, strconv.Atoi e.EnvSinkTimeout ≠ Except.ok n) → r.value = -1) ∧
      (∀ n : Int, - (2 ^ 63 : Int) ≤ n → n < 2 ^ 63 →
        e.EnvSinkTimeout = String.mk (strconv.FormatInt n) → r.value = n) ∧
      (e.EnvSinkTimeout = "30" → r.value = 30) ∧
      (e.EnvSinkTimeout = "-5" → r.value = -5) ∧
      (e.EnvSinkTimeout = "" → r.value = -1) ∧
      (e.EnvSinkTimeout = "abc" → r.value = -1) := by
  obtain ⟨cfg, hcfg⟩ := hdefault
  have key : ∃ r, e.GetSinktimeout lib = Except.ok r ∧
      (∀ n, strconv.Atoi e.EnvSinkTimeout = Except.ok n → r.value = n) ∧
      ((∀ n, strconv.Atoi e.EnvSinkTimeout ≠ Except.ok n) → r.value = -1) := by
    unfold EnvConfig.GetSinktimeout
    cases hat : strconv.Atoi e.EnvSinkTimeout with
    | ok n =>
      refine ⟨_, rfl, ?_, ?_⟩
      · intro m hm; cases hm; rfl
      · intro h; exact absurd rfl (h n)
    | error err =>
      have hlog : ∃ l e1, e.GetLogger lib = Except.ok (l, e1) := by
        unfold EnvConfig.GetLogger
        cases hl : e.logger with
        | some l => exact ⟨l, e, rfl⟩
        | none =>
          cases hj : lib.JSONToConfig e.LoggingConfigJson with
          | ok c => exact ⟨_, _, rfl⟩
          | error x => simp only [hcfg]; exact ⟨_, _, rfl⟩
      obtain ⟨l, e1, hl⟩ := hlog
      simp only [hl]
      refine ⟨_, rfl, ?_, ?_⟩
      · intro m hm; cases hm
      · intro _; rfl
  obtain ⟨r, hr, hok, hfail⟩ := key
  refine ⟨r, hr, hok, hfail, ?_, ?_, ?_, ?_, ?_⟩
  · intro n hlo hhi hs
    exact hok n (by rw [hs]; exact strconv.Atoi_FormatInt n hlo hhi)
  · intro hs; exact hok 30 (by rw [hs]; decide)
  · intro hs; exact hok (-5) (by rw [hs]; decide)
  · intro hs
    have hsyn : strconv.Atoi "" = Except.error strconv.NumError.ErrSyntax := by decide
    exact hfail (by rw [hs, hsyn]; intro n h; cases h)
  · intro hs
    have hsyn : strconv.Atoi "abc" = Except.error strconv.NumError.ErrSyntax := by decide
    exact hfail (by rw [hs, hsyn]; intro n h; cases h)

/-- C4 run on the sample record with raw text `abc`, no logger cached and an
unreadable logging configuration: the call still returns, with value -1. -/
theorem GetSinktimeout_total_witness :
    ∃ r, ({ exampleConfig with EnvSinkTimeout := "abc", LoggingConfigJson := "?" }).GetSinktimeout
        exampleLogging = Except.ok r ∧ r.value = -1 := by
  obtain ⟨r, hr, -, -, -, -, -, -, habc⟩ :=
    GetSinktimeout_total exampleLogging
      { exampleConfig with EnvSinkTimeout := "abc", LoggingConfigJson := "?" } ⟨"default", rfl⟩
  exact ⟨r, hr, habc rfl⟩

end adapter

namespace adapter

open Go

/-- C5: the free function `GetSinkTimeout` returns -1 when `K_SINK_TIMEOUT`
is unset or empty, -1 when its non-empty value is not read by `strconv.Atoi`
or is read as a negative integer, and `n` when it is read as a non-negative
integer `n`; in particular `abc` and `-5` give -1, `20` gives 20, and the
decimal text of any non-negative `int` gives that `int`. -/
theorem GetSinkTimeout_value {L : Type} (env : os.Environ) (logger : Option L) :
    (env EnvSinkTimeout = none ∨ env EnvSinkTimeout = some "" →
      (GetSinkTimeout env logger).1 = -1) ∧
    (∀ s, env EnvSinkTimeout = some s → s ≠ "" → (∀ n, strconv.Atoi s ≠ Except.ok n) →
      (GetSinkTimeout env logger).1 = -1) ∧
    (∀ s n, env EnvSinkTimeout = some s → strconv.Atoi s = Except.ok n → n < 0 →
      (GetSinkTimeout env logger).1 = -1) ∧
    (∀ s n, env EnvSinkTimeout = some s → strconv.Atoi s = Except.ok n → 0 ≤ n →
      (GetSinkTimeout env logger).1 = n) ∧
    (∀ n : Int, 0 ≤ n → n < 2 ^ 63 →
      env EnvSinkTimeout = some (String.mk (strconv.FormatInt n)) →
      (GetSinkTimeout env logger).1 = n) ∧
    (env EnvSinkTimeout = some "abc" → (GetSinkTimeout env logger).1 = -1) ∧
    (env EnvSinkTimeout = some "-5" → (GetSinkTimeout env logger).1 = -1) ∧
    (env EnvSinkTimeout = some "20" → (GetSinkTimeout env logger).1 = 20) := by
  have hempty : env EnvSinkTimeout = none ∨ env EnvSinkTimeout = some "" →
      (GetSinkTimeout env logger).1 = -1 := by
    intro h
    have hg : os.Getenv env EnvSinkTimeout = "" := by
      rcases h with h | h <;> simp [os.Getenv, h]
    simp [GetSinkTimeout, hg]
  have hfail : ∀ s, env EnvSinkTimeout = some s → s ≠ "" →
      (∀ n, strconv.Atoi s ≠ Except.ok n) → (GetSinkTimeout env logger).1 = -1 := by
    intro s hs hne hno
    have hg : os.Getenv env EnvSinkTimeout = s := by simp [os.Getenv, hs]
    cases hat : strconv.Atoi s with
    | ok n => exact absurd hat (hno n)
    | error err => simp [GetSinkTimeout, hg, hne, hat]
  have hnonempty : ∀ s n, strconv.Atoi s = Except.ok n → s ≠ "" := by
    intro s n hat hs
    rw [hs] at hat
    have hsyn : strconv.Atoi "" = Except.error strconv.NumError.ErrSyntax := by decide
    rw [hsyn] at hat
    cases hat
  have hneg : ∀ s n, env EnvSinkTimeout = some s → strconv.Atoi s = Except.ok n → n < 0 →
      (GetSinkTimeout env logger).1 = -1 := by
    intro s n hs hat hn
    have hg : os.Getenv env EnvSinkTimeout = s := by simp [os.Getenv, hs]
    simp [GetSinkTimeout, hg, hnonempty s n hat, hat, hn]
  have hpos : ∀ s n, env EnvSinkTimeout = some s → strconv.Atoi s = Except.ok n → 0 ≤ n →
      (GetSinkTimeout env logger).1 = n := by
    intro s n hs hat hn
    have hg : os.Getenv env EnvSinkTimeout = s := by simp [os.Getenv, hs]
    have hn' : ¬ n < 0 := by omega
    simp [GetSinkTimeout, hg, hnonempty s n hat, hat, hn']
  refine ⟨hempty, hfail, hneg, hpos, ?_, ?_, ?_, ?_⟩
  · intro n h0 hhi hs
    exact hpos _ n hs (strconv.Atoi_FormatInt n (by omega) hhi) h0
  · intro hs
    have hsyn : strconv.Atoi "abc" = Except.error strconv.NumError.ErrSyntax := by decide
    exact hfail "abc" hs (by decide) (by rw [hsyn]; intro n h; cases h)
  · intro hs
    exact hneg "-5" (-5) hs (by decide) (by decide)
  · intro hs
    exact hpos "20" 20 hs (by decide) (by decide)

/-- C5 run on environments that set `K_SINK_TIMEOUT` to `20`, `-5`, `abc`
and the empty string, and on the empty environment. -/
theorem GetSinkTimeout_value_witness :
    (GetSinkTimeout (exampleEnviron "20") (some "log")).1 = 20 ∧
    (GetSinkTimeout (exampleEnviron "-5") (some "log")).1 = -1 ∧
    (GetSinkTimeout (exampleEnviron "abc") (some "log")).1 = -1 ∧
    (GetSinkTimeout (exampleEnviron "") (some "log")).1 = -1 ∧
    (GetSinkTimeout (fun _ => none) (some "log")).1 = -1 :=
  ⟨(GetSinkTimeout_value (exampleEnviron "20") (some "log")).2.2.2.2.2.2.2 rfl,
   (GetSinkTimeout_value (exampleEnviron "-5") (some "log")).2.2.2.2.2.2.1 rfl,
   (GetSinkTimeout_value (exampleEnviron "abc") (some "log")).2.2.2.2.2.1 rfl,
   (GetSinkTimeout_value (exampleEnviron "") (some "log")).1 (Or.inr rfl),
   (GetSinkTimeout_value (fun _ => none) (some "log")).1 (Or.inl rfl)⟩

/-- C6: `GetCloudEventOverrides` returns exactly one of a value and an
error. For the empty overrides text it returns the zero value and a nil
error; for a non-empty text that `json.Unmarshal` accepts, the decoded value
and a nil error; for a non-empty text that `json.Unmarshal` rejects, that
error and a nil value, as for `{not json`. The record is unchanged. -/
theorem GetCloudEventOverrides_value_or_error {C L : Type} (ty : json.StructType C)
    (e : EnvConfig L) :
    (e.CEOverrides = "" → e.GetCloudEventOverrides ty = ((some ty.zero, none), e)) ∧
    (∀ v, e.CEOverrides ≠ "" → json.Unmarshal ty e.CEOverrides ty.zero = (v, none) →
      e.GetCloudEventOverrides ty = ((some v, none), e)) ∧
    (∀ v err, e.CEOverrides ≠ "" → json.Unmarshal ty e.CEOverrides ty.zero = (v, some err) →
      e.GetCloudEventOverrides ty = ((none, some err), e)) ∧
    (e.CEOverrides = "\x7bnot json" →
      e.GetCloudEventOverrides ty = ((none, some json.Error.SyntaxError), e)) ∧
    ((e.GetCloudEventOverrides ty).1.1 = none ↔ (e.GetCloudEventOverrides ty).1.2 ≠ none) := by
  have hempty : e.CEOverrides = "" → e.GetCloudEventOverrides ty = ((some ty.zero, none), e) := by
    intro h
    have hl : ¬ 0 < e.CEOverrides.length := by
      rw [length_pos_iff_ne_empty]; simp [h]
    simp [EnvConfig.GetCloudEventOverrides, hl]
  have hok : ∀ v, e.CEOverrides ≠ "" → json.Unmarshal ty e.CEOverrides ty.zero = (v, none) →
      e.GetCloudEventOverrides ty = ((some v, none), e) := by
    intro v hne hu
    have hl : 0 < e.CEOverrides.length := (length_pos_iff_ne_empty _).mpr hne
    simp [EnvConfig.GetCloudEventOverrides, hl, hu]
  have hfail : ∀ v err, e.CEOverrides ≠ "" →
      json.Unmarshal ty e.CEOverrides ty.zero = (v, some err) →
      e.GetCloudEventOverrides ty = ((none, some err), e) := by
    intro v err hne hu
    have hl : 0 < e.CEOverrides.length := (length_pos_iff_ne_empty _).mpr hne
    simp [EnvConfig.GetCloudEventOverrides, hl, hu]
  refine ⟨hempty, hok, hfail, ?_, ?_⟩
  · intro hs
    have hp : json.parse "\x7bnot json".toList = none := by rfl
    exact hfail ty.zero _ (by rw [hs]; decide) (by rw [hs]; simp only [json.Unmarshal, hp])
  · by_cases hs : e.CEOverrides = ""
    · rw [hempty hs]; simp
    · cases hu : json.Unmarshal ty e.CEOverrides ty.zero with
      | mk v err =>
        cases err with
        | none => rw [hok v hs hu]; simp
        | some err => rw [hfail v err hs hu]; simp

/-- C6 run with the sample struct: the empty text, a text that decodes, a
text with a type error and `{not json`. -/
theorem GetCloudEventOverrides_value_or_error_witness :
    exampleConfig.GetCloudEventOverrides exampleStruct = ((some false, none), exampleConfig) ∧
    ({ exampleConfig with CEOverrides := "\x7b\"enabled\":true\x7d" }).GetCloudEventOverrides
        exampleStruct =
      ((some true, none), { exampleConfig with CEOverrides := "\x7b\"enabled\":true\x7d" }) ∧
    ({ exampleConfig with CEOverrides := "\x7b\"enabled\":1\x7d" }).GetCloudEventOverrides
        exampleStruct =
      ((none, some (json.Error.UnmarshalTypeError "number")),
       { exampleConfig with CEOverrides := "\x7b\"enabled\":1\x7d" }) ∧
    ({ exampleConfig with CEOverrides := "\x7bnot json" }).GetCloudEventOverrides exampleStruct =
      ((none, some json.Error.SyntaxError), { exampleConfig with CEOverrides := "\x7bnot json" }) :=
  ⟨(GetCloudEventOverrides_value_or_error exampleStruct exampleConfig).1 rfl,
   (GetCloudEventOverrides_value_or_error exampleStruct
      { exampleConfig with CEOverrides := "\x7b\"enabled\":true\x7d" }).2.1 true
      (by decide) (by decide),
   (GetCloudEventOverrides_value_or_error exampleStruct
      { exampleConfig with CEOverrides := "\x7b\"enabled\":1\x7d" }).2.2.1 false
      (json.Error.UnmarshalTypeError "number") (by decide) (by decide),
   (GetCloudEventOverrides_value_or_error exampleStruct
      { exampleConfig with CEOverrides := "\x7bnot json" }).2.2.2.1 rfl⟩

/-- C7: `GetObservabilityConfig` on the constructor default `{}` returns the
zero-value configuration and a nil error, and whenever `json.Unmarshal`
rejects the observability text the error returned is that non-nil error (a
syntax error for text that is not JSON, as for `{not json`). The record is
unchanged. -/
theorem GetObservabilityConfig_default_and_failure {O L : Type} (ty : json.StructType O)
    (e : EnvConfig L) :
    (e.ObservabilityConfigJson = "\x7b\x7d" →
      e.GetObservabilityConfig ty = ((some ty.zero, none), e)) ∧
    (∀ err, (json.Unmarshal ty e.ObservabilityConfigJson ty.zero).2 = some err →
      (e.GetObservabilityConfig ty).1.2 = some err ∧ (e.GetObservabilityConfig ty).2 = e) ∧
    (json.parse e.ObservabilityConfigJson.toList = none →
      e.GetObservabilityConfig ty = ((some ty.zero, some json.Error.SyntaxError), e)) ∧
    (e.ObservabilityConfigJson = "\x7bnot json" →
      (e.GetObservabilityConfig ty).1.2 = some json.Error.SyntaxError) := by
  have hsyn : json.parse e.ObservabilityConfigJson.toList = none →
      e.GetObservabilityConfig ty = ((some ty.zero, some json.Error.SyntaxError), e) := by
    intro hp
    simp only [EnvConfig.GetObservabilityConfig, json.Unmarshal, hp]
  refine ⟨?_, ?_, hsyn, ?_⟩
  · intro hs
    have hp : json.parse "\x7b\x7d".toList = some (json.Value.object []) := by rfl
    simp only [EnvConfig.GetObservabilityConfig, json.Unmarshal, hs, hp, json.decodeObject]
  · intro err herr
    exact ⟨herr, rfl⟩
  · intro hs
    have hp : json.parse "\x7bnot json".toList = none := by rfl
    rw [hsyn (by rw [hs]; exact hp)]

/-- C7 run with the sample struct: the default `{}`, a text with a type
error and `{not json`. -/
theorem GetObservabilityConfig_default_and_failure_witness :
    exampleConfig.GetObservabilityConfig exampleStruct = ((some false, none), exampleConfig) ∧
    (({ exampleConfig with
          ObservabilityConfigJson := "\x7b\"enabled\":[]\x7d" }).GetObservabilityConfig
        exampleStruct).1.2 = some (json.Error.UnmarshalTypeError "array") ∧
    (({ exampleConfig with ObservabilityConfigJson := "\x7bnot json" }).GetObservabilityConfig
        exampleStruct).1.2 = some json.Error.SyntaxError :=
  ⟨(GetObservabilityConfig_default_and_failure exampleStruct exampleConfig).1 rfl,
   ((GetObservabilityConfig_default_and_failure exampleStruct
      { exampleConfig with ObservabilityConfigJson := "\x7b\"enabled\":[]\x7d" }).2.1
      (json.Error.UnmarshalTypeError "array") (by decide)).1,
   (GetObservabilityConfig_default_and_failure exampleStruct
      { exampleConfig with ObservabilityConfigJson := "\x7bnot json" }).2.2.2 rfl⟩

end adapter

namespace adapter

open Go

theorem Marshal_ne_empty (c : kle.ComponentConfig) : (c.Marshal).1 ≠ "" := by
  intro h
  have := congrArg String.toList h
  rw [kle.Marshal_text] at this
  simp at this

/-- C8: for a configuration `c` whose integer fields are in their machine
ranges, `LeaderElectionComponentConfigToJSON` succeeds, and an `EnvConfig`
holding the text it wrote and the component of `c` gets `c` itself back from
`GetLeaderElectionConfig`, with a nil error. -/
theorem LeaderElectionConfig_roundtrip {L : Type} (c : kle.ComponentConfig) (e : EnvConfig L)
    (hrange : c.InRange)
    (hjson : e.LeaderElectionConfigJson = (LeaderElectionComponentConfigToJSON (some c)).1)
    (hcomp : e.Component = c.Component) :
    (LeaderElectionComponentConfigToJSON (some c)).2 = none ∧
    e.GetLeaderElectionConfig = ((some c, none), e) := by
  refine ⟨rfl, ?_⟩
  have hj : e.LeaderElectionConfigJson = (c.Marshal).1 := hjson
  have hne : e.LeaderElectionConfigJson ≠ "" := by rw [hj]; exact Marshal_ne_empty c
  have hu := kle.Unmarshal_Marshal c kle.ComponentConfig.structType.zero hrange
  rw [hj] at hne
  unfold EnvConfig.GetLeaderElectionConfig
  simp only [hj, hne, if_false, hu, hcomp]

/-- C8 at a configuration that differs from the default in every field. -/
theorem LeaderElectionConfig_roundtrip_witness :
    (LeaderElectionComponentConfigToJSON (some exampleLeaderElection)).2 = none ∧
    ({ exampleConfig with
        LeaderElectionConfigJson :=
          (LeaderElectionComponentConfigToJSON (some exampleLeaderElection)).1
      }).GetLeaderElectionConfig =
      ((some exampleLeaderElection, none),
       { exampleConfig with
          LeaderElectionConfigJson :=
            (LeaderElectionComponentConfigToJSON (some exampleLeaderElection)).1 }) :=
  LeaderElectionConfig_roundtrip exampleLeaderElection
    { exampleConfig with
        LeaderElectionConfigJson :=
          (LeaderElectionComponentConfigToJSON (some exampleLeaderElection)).1 }
    (by decide) rfl rfl

/-- C9: `LeaderElectionComponentConfigToJSON` maps the nil configuration to
the empty string with a nil error; an `EnvConfig` holding that string gets the
fixed default from `GetLeaderElectionConfig`, with a nil error; and the text
written for a non-nil configuration is never empty. -/
theorem LeaderElectionConfig_nil_roundtrip {L : Type} :
    LeaderElectionComponentConfigToJSON none = ("", none) ∧
    (∀ e : EnvConfig L,
      e.LeaderElectionConfigJson = (LeaderElectionComponentConfigToJSON none).1 →
      e.GetLeaderElectionConfig =
        ((some { Component := e.Component, Buckets := 1, LeaseDuration := 15000000000,
                 RenewDeadline := 10000000000, RetryPeriod := 2000000000 }, none), e)) ∧
    (∀ c : kle.ComponentConfig, (LeaderElectionComponentConfigToJSON (some c)).1 ≠ "") := by
  refine ⟨rfl, ?_, fun c => Marshal_ne_empty c⟩
  intro e he
  have hempty : e.LeaderElectionConfigJson = "" := he
  unfold EnvConfig.GetLeaderElectionConfig
  simp only [hempty, if_true]
  rfl

/-- C9 run on the sample record, whose leader-election text is empty, and on
the sample configuration. -/
theorem LeaderElectionConfig_nil_roundtrip_witness :
    exampleConfig.GetLeaderElectionConfig =
      ((some { Component := "sample-source", Buckets := 1, LeaseDuration := 15000000000,
               RenewDeadline := 10000000000, RetryPeriod := 2000000000 }, none), exampleConfig) ∧
    (LeaderElectionComponentConfigToJSON (some exampleLeaderElection)).1 ≠ "" :=
  ⟨(LeaderElectionConfig_nil_roundtrip).2.1 exampleConfig rfl,
   (LeaderElectionConfig_nil_roundtrip (L := String)).2.2 exampleLeaderElection⟩

/-- C10: `GetOIDCServiceAccountName` returns nil exactly when the
`OIDCServiceAccountName` field is nil; when the field holds `a` (the empty
string included) it returns the record's namespace paired with `a`, so
namespace `ns1` and account `acct` give `(ns1, acct)`; the record is
unchanged. -/
theorem GetOIDCServiceAccountName_spec {L : Type} (e : EnvConfig L) :
    (e.GetOIDCServiceAccountName.1 = none ↔ e.OIDCServiceAccountName = none) ∧
    (∀ a, e.OIDCServiceAccountName = some a →
      e.GetOIDCServiceAccountName.1 = some { Namespace := e.Namespace, Name := a }) ∧
    (e.Namespace = "ns1" → e.OIDCServiceAccountName = some "acct" →
      e.GetOIDCServiceAccountName.1 = some { Namespace := "ns1", Name := "acct" }) ∧
    e.GetOIDCServiceAccountName.2 = e := by
  unfold EnvConfig.GetOIDCServiceAccountName
  cases h : e.OIDCServiceAccountName with
  | none => simp
  | some a =>
    refine ⟨by simp, ?_, ?_, rfl⟩
    · intro b hb; cases hb; rfl
    · intro hn hb; cases hb; simp [hn]

/-- C10 run on the sample record (namespace `ns1`, account `acct`) and on the
same record without an account. -/
theorem GetOIDCServiceAccountName_spec_witness :
    exampleConfig.GetOIDCServiceAccountName.1 = some { Namespace := "ns1", Name := "acct" } ∧
    ({ exampleConfig with OIDCServiceAccountName := none }).GetOIDCServiceAccountName.1 = none :=
  ⟨(GetOIDCServiceAccountName_spec exampleConfig).2.2.1 rfl rfl,
   (GetOIDCServiceAccountName_spec
      { exampleConfig with OIDCServiceAccountName := none }).1.mpr rfl⟩

end adapter

/-! ## `SampleSource` defaulting -/

namespace v1alpha1

/-- C11: after `SetDefaults` the service account name of a `SampleSource` is
`default` if it was empty before and its previous value otherwise; on a nil
receiver the call does nothing and does not fail. -/
theorem SetDefaults_serviceAccountName {TM OM D DS U : Type} (s : SampleSource TM OM D DS U) :
    (SampleSource.SetDefaults (some s)).map (fun t => t.Spec.ServiceAccountName) =
      some (if s.Spec.ServiceAccountName = "" then "default" else s.Spec.ServiceAccountName) ∧
    (s.Spec.ServiceAccountName = "" →
      (SampleSource.SetDefaults (some s)).map (fun t => t.Spec.ServiceAccountName) =
        some "default") ∧
    (s.Spec.ServiceAccountName ≠ "" →
      (SampleSource.SetDefaults (some s)).map (fun t => t.Spec.ServiceAccountName) =
        some s.Spec.ServiceAccountName) ∧
    SampleSource.SetDefaults (none : Option (SampleSource TM OM D DS U)) = none := by
  unfold SampleSource.SetDefaults
  by_cases h : s.Spec.ServiceAccountName = ""
  · simp [h]
  · simp [h]

/-- C11 run on the sample source (no service account) and on the same source
with service account `robot`. -/
theorem SetDefaults_serviceAccountName_witness :
    (SampleSource.SetDefaults (some exampleSource)).map (fun t => t.Spec.ServiceAccountName) =
      some "default" ∧
    (SampleSource.SetDefaults
        (some { exampleSource with
                  Spec := { exampleSource.Spec with ServiceAccountName := "robot" } })).map
      (fun t => t.Spec.ServiceAccountName) = some "robot" :=
  ⟨(SetDefaults_serviceAccountName exampleSource).2.1 rfl,
   (SetDefaults_serviceAccountName
      { exampleSource with
          Spec := { exampleSource.Spec with ServiceAccountName := "robot" } }).2.2.1
      (by decide)⟩

end v1alpha1

/-! ## The cached logger and the frame of the accessors -/

namespace adapter

open Go

/-- With a default logging configuration available, `GetLogger` returns and
leaves the logger it returns in the cache. -/
theorem GetLogger_returns {Cfg L : Type} (lib : logging.Lib Cfg L) (e : EnvConfig L)
    (hdefault : ∃ cfg, lib.NewConfigFromMap [] = Except.ok cfg) :
    ∃ l e1, e.GetLogger lib = Except.ok (l, e1) ∧ e1.logger = some l ∧
      (e1 = e ∨ e1 = { e with logger := some l }) := by
  obtain ⟨cfg, hcfg⟩ := hdefault
  unfold EnvConfig.GetLogger
  cases hl : e.logger with
  | some l => exact ⟨l, e, rfl, hl, Or.inl rfl⟩
  | none =>
    cases hj : lib.JSONToConfig e.LoggingConfigJson with
    | ok c => exact ⟨_, _, rfl, rfl, Or.inr rfl⟩
    | error x => simp only [hcfg]; exact ⟨_, _, rfl, rfl, Or.inr rfl⟩

/-- A record whose cache holds a logger gets that logger back, unchanged,
from any logging library. -/
theorem GetLogger_of_cached {Cfg L : Type} (lib : logging.Lib Cfg L) (e : EnvConfig L) (l : L)
    (h : e.logger = some l) : e.GetLogger lib = Except.ok (l, e) := by
  unfold EnvConfig.GetLogger
  simp only [h]

/-- C12: when the first call of `GetLogger` returns the logger `l`, the cache
of the record holds `l` afterwards, a second call on that record returns
`l` again, and so does every later call on a record with that cache,
whatever its `LoggingConfigJson` and `Component` are by then: the result does
not depend on the logging library at all (nothing is built) and the record
is returned as it was. -/
theorem GetLogger_cached {Cfg L : Type} (lib : logging.Lib Cfg L) (e e1 : EnvConfig L) (l : L)
    (hfirst : e.GetLogger lib = Except.ok (l, e1)) :
    e1.logger = some l ∧
    e1.GetLogger lib = Except.ok (l, e1) ∧
    (∀ (Cfg2 : Type) (lib2 : logging.Lib Cfg2 L) (json component : String),
      ({ e1 with LoggingConfigJson := json, Component := component }).GetLogger lib2 =
        Except.ok (l, { e1 with LoggingConfigJson := json, Component := component })) ∧
    (∀ (Cfg2 : Type) (lib2 : logging.Lib Cfg2 L) (e2 : EnvConfig L), e2.logger = some l →
      e2.GetLogger lib2 = Except.ok (l, e2)) := by
  have hcache : e1.logger = some l := by
    unfold EnvConfig.GetLogger at hfirst
    cases hl : e.logger with
    | some l0 =>
      simp only [hl] at hfirst
      cases hfirst
      exact hl
    | none =>
      simp only [hl] at hfirst
      cases hj : lib.JSONToConfig e.LoggingConfigJson with
      | ok c =>
        simp only [hj] at hfirst
        cases hfirst
        rfl
      | error x =>
        simp only [hj] at hfirst
        cases hn : lib.NewConfigFromMap [] with
        | ok c =>
          simp only [hn] at hfirst
          cases hfirst
          rfl
        | error y =>
          simp only [hn] at hfirst
          cases hfirst
  refine ⟨hcache, GetLogger_of_cached lib e1 l hcache, ?_, ?_⟩
  · intro Cfg2 lib2 json component
    exact GetLogger_of_cached lib2 _ l hcache
  · intro Cfg2 lib2 e2 h2
    exact GetLogger_of_cached lib2 e2 l h2

/-- C12 run on the sample record: the first call builds the logger
`sample-source:{}`, and a later call, made after the logging text and the
component have changed and with a library that can read nothing, still
returns it. -/
theorem GetLogger_cached_witness :
    exampleConfig.GetLogger exampleLogging =
      Except.ok ("sample-source:\x7b\x7d",
        { exampleConfig with logger := some "sample-source:\x7b\x7d" }) ∧
    ({ exampleConfig with
        logger := some "sample-source:\x7b\x7d", LoggingConfigJson := "?",
        Component := "other" }).GetLogger exampleLogging =
      Except.ok ("sample-source:\x7b\x7d",
        { exampleConfig with
            logger := some "sample-source:\x7b\x7d", LoggingConfigJson := "?",
            Component := "other" }) :=
  ⟨by decide,
   (GetLogger_cached exampleLogging exampleConfig
      { exampleConfig with logger := some "sample-source:\x7b\x7d" } "sample-source:\x7b\x7d"
      (by decide)).2.2.1 String exampleLogging "?" "other"⟩

end adapter

namespace adapter

open Go

/-- The record after a call of `GetSinktimeout` that returned: the record
before, or the record before with a logger in the cache. -/
theorem GetSinktimeout_after {Cfg L : Type} (lib : logging.Lib Cfg L) (e : EnvConfig L)
    (r : SinktimeoutResult L) (h : e.GetSinktimeout lib = Except.ok r) :
    r.after = e ∨ ∃ l, r.after = { e with logger := some l } := by
  unfold EnvConfig.GetSinktimeout at h
  cases hat : strconv.Atoi e.EnvSinkTimeout with
  | ok n =>
    simp only [hat] at h
    cases h
    exact Or.inl rfl
  | error err =>
    simp only [hat] at h
    unfold EnvConfig.GetLogger at h
    cases hl : e.logger with
    | some l0 =>
      simp only [hl] at h
      cases h
      exact Or.inl rfl
    | none =>
      simp only [hl] at h
      cases hj : lib.JSONToConfig e.LoggingConfigJson with
      | ok c =>
        simp only [hj] at h
        cases h
        exact Or.inr ⟨_, rfl⟩
      | error x =>
        simp only [hj] at h
        cases hn : lib.NewConfigFromMap [] with
        | ok c =>
          simp only [hn] at h
          cases h
          exact Or.inr ⟨_, rfl⟩
        | error y =>
          simp only [hn] at h
          cases h

/-- C13: the decoding accessors leave the raw fields alone. Whenever
`GetSinktimeout` returns, `EnvSinkTimeout`, `CEOverrides`,
`ObservabilityConfigJson`, `LeaderElectionConfigJson`, `LoggingConfigJson`
and `Component` hold their old values (only the logger cache can differ),
and it does return when the logging library has a default configuration;
`GetCloudEventOverrides`, `GetObservabilityConfig` and
`GetLeaderElectionConfig` return the whole record unchanged, whether they
report an error or not. -/
theorem decoding_accessors_frame {Cfg L C O : Type} (lib : logging.Lib Cfg L)
    (tyC : json.StructType C) (tyO : json.StructType O) (e : EnvConfig L) :
    (∀ r, e.GetSinktimeout lib = Except.ok r →
      r.after.EnvSinkTimeout = e.EnvSinkTimeout ∧ r.after.CEOverrides = e.CEOverrides ∧
      r.after.ObservabilityConfigJson = e.ObservabilityConfigJson ∧
      r.after.LeaderElectionConfigJson = e.LeaderElectionConfigJson ∧
      r.after.LoggingConfigJson = e.LoggingConfigJson ∧ r.after.Component = e.Component) ∧
    ((∃ cfg, lib.NewConfigFromMap [] = Except.ok cfg) →
      ∃ r, e.GetSinktimeout lib = Except.ok r) ∧
    (e.GetCloudEventOverrides tyC).2 = e ∧
    (e.GetObservabilityConfig tyO).2 = e ∧
    e.GetLeaderElectionConfig.2 = e := by
  refine ⟨?_, ?_, ?_, rfl, ?_⟩
  · intro r hr
    rcases GetSinktimeout_after lib e r hr with h | ⟨l, h⟩ <;> rw [h] <;> simp
  · intro hdefault
    obtain ⟨l, e1, hl, -, -⟩ := GetLogger_returns lib e hdefault
    unfold EnvConfig.GetSinktimeout
    cases hat : strconv.Atoi e.EnvSinkTimeout with
    | ok n => exact ⟨_, rfl⟩
    | error err => simp only [hl]; exact ⟨_, rfl⟩
  · unfold EnvConfig.GetCloudEventOverrides
    split
    · dsimp only
      split <;> rfl
    · rfl
  · unfold EnvConfig.GetLeaderElectionConfig
    split
    · rfl
    · dsimp only
      split <;> rfl

/-- C13 run on the sample record with raw texts that fail to decode: the
timeout accessor fills the logger cache and nothing else, the other three
return the record as it was, together with their errors. -/
theorem decoding_accessors_frame_witness :
    (({ exampleConfig with EnvSinkTimeout := "abc" }).GetSinktimeout exampleLogging).map
        (fun (r : SinktimeoutResult String) => r.after) =
      Except.ok { exampleConfig with
                    EnvSinkTimeout := "abc", logger := some "sample-source:\x7b\x7d" } ∧
    ({ exampleConfig with CEOverrides := "\x7bnot json" }).GetCloudEventOverrides exampleStruct =
      ((none, some json.Error.SyntaxError), { exampleConfig with CEOverrides := "\x7bnot json" }) ∧
    (({ exampleConfig with LeaderElectionConfigJson := "[]" }).GetLeaderElectionConfig).2 =
      { exampleConfig with LeaderElectionConfigJson := "[]" } :=
  ⟨by decide, by decide,
   (decoding_accessors_frame exampleLogging exampleStruct exampleStruct
      { exampleConfig with LeaderElectionConfigJson := "[]" }).2.2.2.2⟩

/-- C14: `SetComponent` accepts any string, the empty one included: after
the call `Component` is that string, every other field holds its old value,
and `GetLeaderElectionConfig` on the new record returns a configuration
whose `Component` is that string (with or without an error, as the
leader-election text decides). -/
theorem SetComponent_frame {L : Type} (e : EnvConfig L) (name : String) :
    (e.SetComponent name).Component = name ∧
    ((e.SetComponent name).Namespace = e.Namespace ∧ (e.SetComponent name).Name = e.Name ∧
      (e.SetComponent name).ResourceGroup = e.ResourceGroup ∧
      (e.SetComponent name).Sink = e.Sink ∧ (e.SetComponent name).Audience = e.Audience ∧
      (e.SetComponent name).OIDCServiceAccountName = e.OIDCServiceAccountName ∧
      (e.SetComponent name).CACerts = e.CACerts ∧
      (e.SetComponent name).CEOverrides = e.CEOverrides ∧
      (e.SetComponent name).LoggingConfigJson = e.LoggingConfigJson ∧
      (e.SetComponent name).ObservabilityConfigJson = e.ObservabilityConfigJson ∧
      (e.SetComponent name).LeaderElectionConfigJson = e.LeaderElectionConfigJson ∧
      (e.SetComponent name).EnvSinkTimeout = e.EnvSinkTimeout ∧
      (e.SetComponent name).logger = e.logger) ∧
    ∃ c err, (e.SetComponent name).GetLeaderElectionConfig =
      ((some c, err), e.SetComponent name) ∧ c.Component = name := by
  refine ⟨rfl, ⟨rfl, rfl, rfl, rfl, rfl, rfl, rfl, rfl, rfl, rfl, rfl, rfl, rfl⟩, ?_⟩
  unfold EnvConfig.GetLeaderElectionConfig
  split
  · exact ⟨_, _, rfl, rfl⟩
  · dsimp only
    split
    · exact ⟨_, _, rfl, rfl⟩
    · exact ⟨_, _, rfl, rfl⟩

/-- C14 run on the sample record: after `SetComponent` with the empty string
the default leader-election configuration carries the empty component, and
after `SetComponent` with `mine` a decoded configuration carries `mine`. -/
theorem SetComponent_frame_witness :
    (exampleConfig.SetComponent "").GetLeaderElectionConfig.1 =
      (some { Component := "", Buckets := 1, LeaseDuration := 15000000000,
              RenewDeadline := 10000000000, RetryPeriod := 2000000000 }, none) ∧
    (({ exampleConfig with
          LeaderElectionConfigJson := "\x7b\"Component\":\"theirs\",\"Buckets\":2\x7d"
        }).SetComponent "mine").GetLeaderElectionConfig.1 =
      (some { Component := "mine", Buckets := 2, LeaseDuration := 0,
              RenewDeadline := 0, RetryPeriod := 0 }, none) ∧
    (exampleConfig.SetComponent "").Component = "" :=
  ⟨by decide, by decide, (SetComponent_frame exampleConfig "").1⟩

end adapter

/-! ## The two sink-timeout resolvers -/

namespace adapter

open Go

/-- The raw text read by `strconv.Atoi` is not empty. -/
theorem ne_empty_of_Atoi {s : String} {n : Int} (h : strconv.Atoi s = Except.ok n) : s ≠ "" := by
  intro hs
  rw [hs] at h
  have hsyn : strconv.Atoi "" = Except.error strconv.NumError.ErrSyntax := by decide
  rw [hsyn] at h
  cases h

/-- The text of the error message of the free function `GetSinkTimeout`. -/
theorem GetSinkTimeout_invalid {L : Type} (env : os.Environ) (logger : Option L) (s : String)
    (hs : env EnvSinkTimeout = some s) (hne : s ≠ "")
    (hbad : (∃ err, strconv.Atoi s = Except.error err) ∨
      ∃ n, strconv.Atoi s = Except.ok n ∧ n < 0) :
    GetSinkTimeout env logger =
      (-1, match logger with
           | some l =>
             [{ logger := l, level := logging.Level.Error,
                message := "K_SINK_TIMEOUT environment value is invalid. " ++
                  "It must be a integer greater than zero. (got " ++ s ++ ")" }]
           | none => []) := by
  have hg : os.Getenv env EnvSinkTimeout = s := by simp [os.Getenv, hs]
  unfold GetSinkTimeout
  rcases hbad with ⟨err, he⟩ | ⟨n, hn, hlt⟩
  · simp only [hg, hne, ne_eq, not_false_eq_true, if_true, he]
    cases logger <;> simp [EnvSinkTimeout, String.append_assoc]
  · simp only [hg, hne, ne_eq, not_false_eq_true, if_true, hn, hlt]
    cases logger <;> simp [EnvSinkTimeout, String.append_assoc]

/-- C15, counterexample: with `K_SINK_TIMEOUT` set to `abc`, which
`strconv.Atoi` rejects, and a nil logger, the free function `GetSinkTimeout`
returns -1 and logs no message at all, not exactly one. -/
theorem GetSinkTimeout_nil_logger_silent :
    strconv.Atoi "abc" = Except.error strconv.NumError.ErrSyntax ∧
    GetSinkTimeout (exampleEnviron "abc") (none : Option String) = (-1, []) := by
  constructor <;> decide

/-- C15, amended: the free function `GetSinkTimeout` logs nothing when
`K_SINK_TIMEOUT` is unset or empty and nothing when it is read as a
non-negative integer; when the value is not empty and is not read by
`strconv.Atoi` or is read as a negative integer, it logs exactly one
error-level message to the logger it was given, provided that logger is not
nil, and nothing when the logger is nil. `EnvConfig.GetSinktimeout`, whenever
it returns (which it does when the logging library has a default
configuration), has logged nothing if `strconv.Atoi` reads its raw text and
exactly one warning-level message, to the logger of `GetLogger`, if not. -/
theorem sink_timeout_logging {Cfg L : Type} (lib : logging.Lib Cfg L) (e : EnvConfig L)
    (env : os.Environ) (logger : Option L) :
    (env EnvSinkTimeout = none ∨ env EnvSinkTimeout = some "" →
      (GetSinkTimeout env logger).2 = []) ∧
    (∀ s n, env EnvSinkTimeout = some s → strconv.Atoi s = Except.ok n → 0 ≤ n →
      (GetSinkTimeout env logger).2 = []) ∧
    (∀ s l, env EnvSinkTimeout = some s → s ≠ "" → logger = some l →
      ((∃ err, strconv.Atoi s = Except.error err) ∨ ∃ n, strconv.Atoi s = Except.ok n ∧ n < 0) →
      ∃ msg, (GetSinkTimeout env logger).2 =
        [{ logger := l, level := logging.Level.Error, message := msg }]) ∧
    (logger = none → (GetSinkTimeout env logger).2 = []) ∧
    (∀ r, e.GetSinktimeout lib = Except.ok r →
      ((∃ n, strconv.Atoi e.EnvSinkTimeout = Except.ok n) → r.logged = []) ∧
      ((∃ err, strconv.Atoi e.EnvSinkTimeout = Except.error err) →
        ∃ l e1 msg, e.GetLogger lib = Except.ok (l, e1) ∧
          r.logged = [{ logger := l, level := logging.Level.Warn, message := msg }])) ∧
    ((∃ cfg, lib.NewConfigFromMap [] = Except.ok cfg) →
      ∃ r, e.GetSinktimeout lib = Except.ok r) := by
  refine ⟨?_, ?_, ?_, ?_, ?_, ?_⟩
  · intro h
    have hg : os.Getenv env EnvSinkTimeout = "" := by
      rcases h with h | h <;> simp [os.Getenv, h]
    simp [GetSinkTimeout, hg]
  · intro s n hs hat hn
    have hg : os.Getenv env EnvSinkTimeout = s := by simp [os.Getenv, hs]
    have hn' : ¬ n < 0 := by omega
    simp [GetSinkTimeout, hg, ne_empty_of_Atoi hat, hat, hn']
  · intro s l hs hne hl hbad
    rw [GetSinkTimeout_invalid env logger s hs hne hbad, hl]
    exact ⟨_, rfl⟩
  · intro hl
    subst hl
    unfold GetSinkTimeout
    dsimp only
    split
    · split
      · rfl
      · split <;> rfl
    · rfl
  · intro r hr
    unfold EnvConfig.GetSinktimeout at hr
    cases hat : strconv.Atoi e.EnvSinkTimeout with
    | ok n =>
      simp only [hat] at hr
      cases hr
      exact ⟨fun _ => rfl, fun ⟨err, h⟩ => (by cases h)⟩
    | error err =>
      simp only [hat] at hr
      cases hlg : e.GetLogger lib with
      | error p => simp only [hlg] at hr; cases hr
      | ok p =>
        obtain ⟨l, e1⟩ := p
        simp only [hlg] at hr
        cases hr
        exact ⟨fun ⟨n, h⟩ => (by cases h), fun _ => ⟨l, e1, _, rfl, rfl⟩⟩
  · intro hdefault
    obtain ⟨l, e1, hl, -, -⟩ := GetLogger_returns lib e hdefault
    unfold EnvConfig.GetSinktimeout
    cases hat : strconv.Atoi e.EnvSinkTimeout with
    | ok n => exact ⟨_, rfl⟩
    | error err => simp only [hl]; exact ⟨_, rfl⟩

/-- C15 (amended) run with a logger `log`: `abc` and `-5` each give one
error-level message, `20` and no variable give none; and `GetSinktimeout` on
raw text `abc` gives one warning-level message. -/
theorem sink_timeout_logging_witness :
    (∃ msg, (GetSinkTimeout (exampleEnviron "abc") (some "log")).2 =
      [{ logger := "log", level := logging.Level.Error, message := msg }]) ∧
    (∃ msg, (GetSinkTimeout (exampleEnviron "-5") (some "log")).2 =
      [{ logger := "log", level := logging.Level.Error, message := msg }]) ∧
    (GetSinkTimeout (exampleEnviron "20") (some "log")).2 = [] ∧
    (GetSinkTimeout (fun _ => none) (some "log")).2 = [] ∧
    (({ exampleConfig with EnvSinkTimeout := "abc" }).GetSinktimeout exampleLogging).map
        (fun (r : SinktimeoutResult String) => r.logged) =
      Except.ok [{ logger := "sample-source:\x7b\x7d", level := logging.Level.Warn,
                   message := "Sink timeout configuration is invalid, default to -1 (no timeout)" }] :=
  ⟨(sink_timeout_logging exampleLogging exampleConfig (exampleEnviron "abc") (some "log")).2.2.1
      "abc" "log" rfl (by decide) rfl (Or.inl ⟨strconv.NumError.ErrSyntax, by decide⟩),
   (sink_timeout_logging exampleLogging exampleConfig (exampleEnviron "-5") (some "log")).2.2.1
      "-5" "log" rfl (by decide) rfl (Or.inr ⟨-5, by decide, by decide⟩),
   (sink_timeout_logging exampleLogging exampleConfig (exampleEnviron "20") (some "log")).2.1
      "20" 20 rfl (by decide) (by decide),
   (sink_timeout_logging exampleLogging exampleConfig (fun _ => none) (some "log")).1
      (Or.inl rfl),
   by decide⟩

end adapter

/-! ## Construction from the environment -/

namespace adapter

open Go

/-- C16: on construction from the named inputs, `Name` is the default
`adapter` when `NAME` is unset or empty and the supplied value when `NAME`
is set to a non-empty string, and likewise `ResourceGroup` with
`K_RESOURCE_GROUP` and `adapter.sources.knative.dev` (so a default is
applied exactly when the input is empty or absent and never replaces a
non-empty value); hence neither field is empty after construction. -/
theorem NewEnvConfig_defaults (L : Type) (env : os.Environ) :
    (env EnvConfigName = none ∨ env EnvConfigName = some "" →
      (NewEnvConfig L env).Name = "adapter") ∧
    (∀ v, env EnvConfigName = some v → v ≠ "" → (NewEnvConfig L env).Name = v) ∧
    (env EnvConfigResourceGroup = none ∨ env EnvConfigResourceGroup = some "" →
      (NewEnvConfig L env).ResourceGroup = "adapter.sources.knative.dev") ∧
    (∀ v, env EnvConfigResourceGroup = some v → v ≠ "" →
      (NewEnvConfig L env).ResourceGroup = v) ∧
    (NewEnvConfig L env).Name ≠ "" ∧ (NewEnvConfig L env).ResourceGroup ≠ "" := by
  have key : ∀ (input : Option String) (dflt : String), dflt ≠ "" →
      (input = none ∨ input = some "" → orDefaultIfEmpty input dflt = dflt) ∧
      (∀ v, input = some v → v ≠ "" → orDefaultIfEmpty input dflt = v) ∧
      orDefaultIfEmpty input dflt ≠ "" := by
    intro input dflt hd
    unfold orDefaultIfEmpty
    cases input with
    | none => simp [hd]
    | some w =>
      by_cases hw : w = ""
      · simp [hw, hd]
      · simp [hw]
  have hn := key (env EnvConfigName) defaultName (by decide)
  have hr := key (env EnvConfigResourceGroup) defaultResourceGroup (by decide)
  exact ⟨hn.1, hn.2.1, hr.1, hr.2.1, hn.2.2, hr.2.2⟩

/-- C16 run on the empty environment and on one that sets `NAME` to `mine`
and `K_RESOURCE_GROUP` to the empty string. -/
theorem NewEnvConfig_defaults_witness :
    (NewEnvConfig String (fun _ => none)).Name = "adapter" ∧
    (NewEnvConfig String (fun _ => none)).ResourceGroup = "adapter.sources.knative.dev" ∧
    (NewEnvConfig String
      (fun key => if key = "NAME" then some "mine"
        else if key = "K_RESOURCE_GROUP" then some "" else none)).Name = "mine" ∧
    (NewEnvConfig String
      (fun key => if key = "NAME" then some "mine"
        else if key = "K_RESOURCE_GROUP" then some "" else none)).ResourceGroup =
      "adapter.sources.knative.dev" :=
  ⟨(NewEnvConfig_defaults String (fun _ => none)).1 (Or.inl rfl),
   (NewEnvConfig_defaults String (fun _ => none)).2.2.1 (Or.inl rfl),
   (NewEnvConfig_defaults String
      (fun key => if key = "NAME" then some "mine"
        else if key = "K_RESOURCE_GROUP" then some "" else none)).2.1 "mine" (by decide)
      (by decide),
   (NewEnvConfig_defaults String
      (fun key => if key = "NAME" then some "mine"
        else if key = "K_RESOURCE_GROUP" then some "" else none)).2.2.1 (Or.inr (by decide))⟩

end adapter

/-! ## Calls of `GetLogger` that overlap -/

namespace adapter

open Go

theorem Calls.run_append {Cfg L : Type} (lib : logging.Lib Cfg L) (a b : List Nat) (st : Calls L) :
    Calls.run lib (a ++ b) st = Calls.run lib b (Calls.run lib a st) := by
  induction a generalizing st with
  | nil => rfl
  | cons i a ih => exact ih _

/-- A move of the call that stands right after the calls `d`. -/
theorem Calls.move_at {Cfg L : Type} (lib : logging.Lib Cfg L) (d rest : List (LoggerCall L))
    (pc : LoggerCall L) (s : Shared L) :
    Calls.move lib d.length { calls := d ++ pc :: rest, shared := s } =
      { calls := d ++ (pc.step lib s).1 :: rest, shared := (pc.step lib s).2 } := by
  have hget : (d ++ pc :: rest).get? d.length = some pc := by
    induction d with
    | nil => rfl
    | cons x d ih => simpa using ih
  have hset : ∀ q, (d ++ pc :: rest).set d.length q = d ++ q :: rest := by
    intro q
    induction d with
    | nil => rfl
    | cons x d ih => simp
  simp only [Calls.move, hget, hset]

/-- A whole call on a record whose cache holds a logger: it returns that
logger, builds nothing and changes nothing. -/
theorem Calls.call_cached {Cfg L : Type} (lib : logging.Lib Cfg L) (d rest : List (LoggerCall L))
    (s : Shared L) (l : L) (h : s.config.logger = some l) :
    Calls.run lib [d.length, d.length, d.length, d.length]
        { calls := d ++ LoggerCall.atCheck :: rest, shared := s } =
      { calls := d ++ LoggerCall.returned (some l) :: rest, shared := s } := by
  simp only [Calls.run, Calls.move_at, LoggerCall.step, h]

/-- A whole call on a record whose cache is empty: it builds one logger,
stores it and returns it, as `GetLogger` says. -/
theorem Calls.call_first {Cfg L : Type} (lib : logging.Lib Cfg L) (d rest : List (LoggerCall L))
    (s : Shared L) (l : L) (e1 : EnvConfig L) (h : s.config.logger = none)
    (hget : s.config.GetLogger lib = Except.ok (l, e1)) :
    Calls.run lib [d.length, d.length, d.length, d.length]
        { calls := d ++ LoggerCall.atCheck :: rest, shared := s } =
      { calls := d ++ LoggerCall.returned (some l) :: rest,
        shared := { config := e1, built := s.built + 1 } } ∧
    e1.logger = some l := by
  unfold EnvConfig.GetLogger at hget
  simp only [h] at hget
  cases hj : lib.JSONToConfig s.config.LoggingConfigJson with
  | ok c =>
    simp only [hj] at hget
    cases hget
    simp only [Calls.run, Calls.move_at, LoggerCall.step, h, hj, and_self]
  | error x =>
    simp only [hj] at hget
    cases hn : lib.NewConfigFromMap [] with
    | ok c =>
      simp only [hn] at hget
      cases hget
      simp only [Calls.run, Calls.move_at, LoggerCall.step, h, hj, hn, and_self]
    | error y =>
      simp only [hn] at hget
      cases hget

/-- Calls made in turn on a record whose cache holds a logger all return
that logger; nothing is built and the record stays as it is. -/
theorem Calls.inTurn_cached {Cfg L : Type} (lib : logging.Lib Cfg L) (n : Nat)
    (d : List (LoggerCall L)) (s : Shared L) (l : L) (h : s.config.logger = some l) :
    Calls.run lib (inTurn d.length n)
        { calls := d ++ List.replicate n LoggerCall.atCheck, shared := s } =
      { calls := d ++ List.replicate n (LoggerCall.returned (some l)), shared := s } := by
  induction n generalizing d with
  | zero => rfl
  | succ n ih =>
    have hstep := Calls.call_cached lib d (List.replicate n LoggerCall.atCheck) s l h
    have hnext := ih (d ++ [LoggerCall.returned (some l)])
    simp only [List.length_append, List.length_singleton, List.append_assoc,
      List.singleton_append] at hnext
    simp only [inTurn, List.replicate_succ, Calls.run_append, hstep, hnext]

/-- C17, counterexample: two first calls of `GetLogger` on the sample record
that overlap (each tests the cache before the other has stored its logger)
build two loggers. -/
theorem GetLogger_overlapping_calls_build_twice :
    (Calls.run exampleLogging [0, 1, 0, 1, 0, 1, 0, 1] (Calls.start 2 exampleConfig)).shared.built
      = 2 := by
  decide

/-- C17, amended: `GetLogger` has no lock around its check-and-create, and
what it guarantees is for calls that do not overlap: when `n` workers make
their calls one after another on a record, at most one logger is built, every
call returns the logger the first `GetLogger` returns, and the record after
them is the record after that first call. -/
theorem GetLogger_calls_in_turn {Cfg L : Type} (lib : logging.Lib Cfg L) (e : EnvConfig L)
    (n : Nat) (hdefault : ∃ cfg, lib.NewConfigFromMap [] = Except.ok cfg) :
    ∃ l e1, e.GetLogger lib = Except.ok (l, e1) ∧
      (Calls.run lib (inTurn 0 n) (Calls.start n e)).calls =
        List.replicate n (LoggerCall.returned (some l)) ∧
      (Calls.run lib (inTurn 0 n) (Calls.start n e)).shared.built ≤ 1 ∧
      (0 < n → (Calls.run lib (inTurn 0 n) (Calls.start n e)).shared.config = e1) := by
  obtain ⟨l, e1, hget, hcache, -⟩ := GetLogger_returns lib e hdefault
  refine ⟨l, e1, hget, ?_⟩
  cases hl : e.logger with
  | some l0 =>
    have hsame : l0 = l ∧ e1 = e := by
      have := GetLogger_of_cached lib e l0 hl
      rw [this] at hget
      cases hget
      exact ⟨rfl, rfl⟩
    obtain ⟨rfl, rfl⟩ := hsame
    have h := Calls.inTurn_cached lib n [] { config := e1, built := 0 } l0 hl
    simp only [List.length_nil, List.nil_append] at h
    simp only [Calls.start, h]
    exact ⟨trivial, by omega, fun _ => trivial⟩
  | none =>
    cases n with
    | zero => exact ⟨rfl, by simp [Calls.start, inTurn, Calls.run], fun h => absurd h (by omega)⟩
    | succ n =>
      have hfirst := (Calls.call_first lib [] (List.replicate n LoggerCall.atCheck)
        { config := e, built := 0 } l e1 hl hget).1
      have hrest := Calls.inTurn_cached lib n [LoggerCall.returned (some l)]
        { config := e1, built := 0 + 1 } l hcache
      simp only [List.length_nil, List.nil_append] at hfirst
      simp only [List.length_singleton, List.singleton_append] at hrest
      simp only [Calls.start, inTurn, List.replicate_succ, Calls.run_append, hfirst, hrest]
      exact ⟨trivial, by omega, fun _ => trivial⟩

/-- C17 (amended) run on the sample record with three workers. -/
theorem GetLogger_calls_in_turn_witness :
    (Calls.run exampleLogging (inTurn 0 3) (Calls.start 3 exampleConfig)).calls =
      List.replicate 3 (LoggerCall.returned (some "sample-source:\x7b\x7d")) ∧
    (Calls.run exampleLogging (inTurn 0 3) (Calls.start 3 exampleConfig)).shared.built ≤ 1 := by
  obtain ⟨l, e1, hget, hcalls, hbuilt, -⟩ :=
    GetLogger_calls_in_turn exampleLogging exampleConfig 3 ⟨"default", rfl⟩
  have hl : exampleConfig.GetLogger exampleLogging =
      Except.ok ("sample-source:\x7b\x7d",
        { exampleConfig with logger := some "sample-source:\x7b\x7d" }) := by decide
  rw [hl] at hget
  cases hget
  exact ⟨hcalls, hbuilt⟩

end adapter

/-! ## The two sink-timeout resolvers compared -/

namespace adapter

open Go

/-- C18, the code at the failing input: with `K_SINK_TIMEOUT` set to `0` the
free function `GetSinkTimeout` returns 0 and logs nothing, for any logger;
it does not treat the value as invalid. -/
theorem GetSinkTimeout_accepts_zero {L : Type} (logger : Option L) :
    GetSinkTimeout (exampleEnviron "0") logger = (0, []) := by
  have hg : os.Getenv (exampleEnviron "0") EnvSinkTimeout = "0" := by decide
  have hat : strconv.Atoi "0" = Except.ok 0 := by decide
  unfold GetSinkTimeout
  simp [hg, hat]

/-- The integer `GetSinktimeout` returns, as a function of what
`strconv.Atoi` makes of the raw text. -/
theorem GetSinktimeout_method_value {Cfg L : Type} (lib : logging.Lib Cfg L) (e : EnvConfig L)
    (hdefault : ∃ cfg, lib.NewConfigFromMap [] = Except.ok cfg) :
    ∃ r, e.GetSinktimeout lib = Except.ok r ∧
      r.value = (match strconv.Atoi e.EnvSinkTimeout with
                 | Except.ok n => n
                 | Except.error _ => -1) := by
  obtain ⟨l, e1, hl, -, -⟩ := GetLogger_returns lib e hdefault
  unfold EnvConfig.GetSinktimeout
  cases hat : strconv.Atoi e.EnvSinkTimeout with
  | ok n => exact ⟨_, rfl, rfl⟩
  | error err => simp only [hl]; exact ⟨_, rfl, rfl⟩

/-- The integer the free function `GetSinkTimeout` returns when the variable
is set, as a function of what `strconv.Atoi` makes of its value. -/
theorem GetSinkTimeout_function_value {L : Type} (env : os.Environ) (logger : Option L) (s : String)
    (hs : env EnvSinkTimeout = some s) :
    (GetSinkTimeout env logger).1 =
      (match strconv.Atoi s with
       | Except.ok n => if n < 0 then -1 else n
       | Except.error _ => -1) := by
  have hg : os.Getenv env EnvSinkTimeout = s := by simp [os.Getenv, hs]
  unfold GetSinkTimeout
  by_cases hne : s = ""
  · have hsyn : strconv.Atoi "" = Except.error strconv.NumError.ErrSyntax := by decide
    simp [hg, hne, hsyn]
  · cases hat : strconv.Atoi s with
    | ok n =>
      by_cases hn : n < 0
      · simp [hg, hne, hat, hn]
      · simp [hg, hne, hat, hn]
    | error err => simp [hg, hne, hat]

/-- C19: let `m` be what `EnvConfig.GetSinktimeout` returns for the raw text
`s` and `f` what the free function `GetSinkTimeout` returns when
`K_SINK_TIMEOUT` is set to `s`. Then `f = m` when `m` is not negative and
`f = -1` when `m` is negative; `f` is never below -1; and `f` differs from `m`
exactly when `strconv.Atoi` reads `s` as an integer below -1. (`m` exists as
soon as the logging library has a default configuration.) -/
theorem sink_timeout_resolvers_agree {Cfg L : Type} (lib : logging.Lib Cfg L) (e : EnvConfig L)
    (env : os.Environ) (logger : Option L)
    (hdefault : ∃ cfg, lib.NewConfigFromMap [] = Except.ok cfg)
    (henv : env EnvSinkTimeout = some e.EnvSinkTimeout) :
    ∃ r, e.GetSinktimeout lib = Except.ok r ∧
      (0 ≤ r.value → (GetSinkTimeout env logger).1 = r.value) ∧
      (r.value < 0 → (GetSinkTimeout env logger).1 = -1) ∧
      -1 ≤ (GetSinkTimeout env logger).1 ∧
      ((GetSinkTimeout env logger).1 ≠ r.value ↔
        ∃ n, strconv.Atoi e.EnvSinkTimeout = Except.ok n ∧ n < -1) := by
  obtain ⟨r, hr, hm⟩ := GetSinktimeout_method_value lib e hdefault
  have hf := GetSinkTimeout_function_value env logger e.EnvSinkTimeout henv
  refine ⟨r, hr, ?_⟩
  cases hat : strconv.Atoi e.EnvSinkTimeout with
  | ok n =>
    simp only [hat] at hm hf
    rw [hm, hf]
    by_cases hn : n < 0
    · rw [if_pos hn]
      refine ⟨fun h => by omega, fun _ => rfl, by omega, ?_⟩
      constructor
      · intro hne
        exact ⟨n, rfl, by omega⟩
      · rintro ⟨k, hk, hlt⟩
        cases hk
        omega
    · rw [if_neg hn]
      refine ⟨fun _ => rfl, fun h => by omega, by omega, ?_⟩
      constructor
      · intro hne; exact absurd rfl hne
      · rintro ⟨k, hk, hlt⟩
        cases hk
        omega
  | error err =>
    simp only [hat] at hm hf
    rw [hm, hf]
    refine ⟨fun _ => rfl, fun _ => rfl, by omega, ?_⟩
    constructor
    · intro hne; exact absurd rfl hne
    · rintro ⟨k, hk, -⟩
      cases hk

/-- C19 run on raw text `-5`: the method returns -5, the free function -1. -/
theorem sink_timeout_resolvers_agree_witness :
    ∃ r, ({ exampleConfig with EnvSinkTimeout := "-5" }).GetSinktimeout exampleLogging =
        Except.ok r ∧ r.value = -5 ∧
      (GetSinkTimeout (exampleEnviron "-5") (some "log")).1 = -1 := by
  obtain ⟨r, hr, -, hneg, -, -⟩ :=
    sink_timeout_resolvers_agree exampleLogging { exampleConfig with EnvSinkTimeout := "-5" }
      (exampleEnviron "-5") (some "log") ⟨"default", rfl⟩ rfl
  have hv : r.value = -5 := by
    have h5 : ({ exampleConfig with EnvSinkTimeout := "-5" }).GetSinktimeout exampleLogging =
        Except.ok { value := -5, logged := [],
                    after := { exampleConfig with EnvSinkTimeout := "-5" } } := by decide
    rw [h5] at hr
    cases hr
    rfl
  exact ⟨r, hr, hv, hneg (by rw [hv]; decide)⟩

end adapter

/-! ## `SampleSource` defaulting, again -/

namespace v1alpha1

/-- C20: `SetDefaults` is idempotent; on a `SampleSource` it changes nothing
but `Spec.ServiceAccountName` (type and object metadata, `Spec.Interval`,
`Spec.Sink` and `Status` keep their values), and the service account name is
not empty afterwards. -/
theorem SetDefaults_idempotent_frame {TM OM D DS U : Type} (s : SampleSource TM OM D DS U) :
    SampleSource.SetDefaults (SampleSource.SetDefaults (some s)) =
      SampleSource.SetDefaults (some s) ∧
    SampleSource.SetDefaults (SampleSource.SetDefaults (none : Option (SampleSource TM OM D DS U))) =
      SampleSource.SetDefaults none ∧
    ∃ t, SampleSource.SetDefaults (some s) = some t ∧
      t.TypeMeta = s.TypeMeta ∧ t.ObjectMeta = s.ObjectMeta ∧
      t.Spec.Interval = s.Spec.Interval ∧ t.Spec.Sink = s.Spec.Sink ∧
      t.Status = s.Status ∧ t.Spec.ServiceAccountName ≠ "" := by
  unfold SampleSource.SetDefaults
  by_cases h : s.Spec.ServiceAccountName = ""
  · simp [h]
  · simp [h]

/-- C20 run on the sample source: its defaulted form is a fixed point. -/
theorem SetDefaults_idempotent_frame_witness :
    SampleSource.SetDefaults (some exampleSource) =
      some { exampleSource with
               Spec := { exampleSource.Spec with ServiceAccountName := "default" } } ∧
    SampleSource.SetDefaults (SampleSource.SetDefaults (some exampleSource)) =
      SampleSource.SetDefaults (some exampleSource) :=
  ⟨by decide, (SetDefaults_idempotent_frame exampleSource).1⟩

end v1alpha1
